import Mathlib

/-!
# Verification of the support/resistance detector

Shallow embedding of `src/classes/classes.py` (classes `getStockTimeSeries`
and `stockPriceSupportResistance`).

Modelling conventions:
* A Python dict record (one time-series point) is an association list
  `Entry = List (String × RawValue)`; `lookup` returns the value at the first
  occurrence of a key, `setK` models `entry[k] = v` (replace in place, else
  append), matching insertion-ordered Python dicts.
* Python values occurring in the pipeline are strings, numbers or `None`
  (`RawValue`).  Numbers are modelled as exact rationals: every finite float
  is a rational and Python float comparison agrees with the rational order.
  Non-finite floats (`inf`/`nan`) are outside the model.
* Python exceptions are `Except PyErr`; `TypeError` from comparing or
  coercing incompatible values, `KeyError` from a missing dict key,
  `ValueError` from the validation checks.
* The semantics of the builtins `float(s)` and `int(s)` on strings is not in
  the repository; the embedding is parameterized by partial parse functions
  `fp : String → Option ℚ` and `ip : String → Option ℤ` standing for them.
-/

set_option autoImplicit false

namespace SRD

/-- A Python value flowing through the pipeline: a string, a number
(float or int, modelled as an exact rational), or `None`. -/
inductive RawValue where
  | vStr (s : String)
  | vNum (q : ℚ)
  | vNone
  deriving DecidableEq, Repr

/-- A raw or processed record: an insertion-ordered Python dict. -/
abbrev Entry := List (String × RawValue)

/-- A detected level, the 2-element Python list `[price, datetime]`. -/
abbrev Level := RawValue × RawValue

/-- Python exceptions raised by the embedded code. -/
inductive PyErr where
  | valueError (msg : String)
  | typeError
  | keyError
  deriving DecidableEq, Repr

/-- First-occurrence key lookup in a record (Python dict read). -/
def lookup : Entry → String → Option RawValue
  | [], _ => none
  | (k, v) :: rest, key => if k = key then some v else lookup rest key

/-- `entry[key]`: dict subscript, raising `KeyError` when absent. -/
def getItem (e : Entry) (key : String) : Except PyErr RawValue :=
  match lookup e key with
  | some v => .ok v
  | none => .error .keyError

/-- `entry[key] = v`: replace the value at `key` in place, else append. -/
def setK : Entry → String → RawValue → Entry
  | [], key, v => [(key, v)]
  | (k, w) :: rest, key, v =>
    if k = key then (key, v) :: rest else (k, w) :: setK rest key v

/-- `data[i]` for an index produced by the scan loop (always in bounds
there; out of range defaults to an empty record). -/
def entryAt (data : List Entry) (i : Nat) : Entry := data.getD i []

/-- Python `==` between pipeline values: equal only within one type,
mixed-type equality is `False` (no exception). -/
def valEq : RawValue → RawValue → Bool
  | .vNum a, .vNum b => a == b
  | .vStr a, .vStr b => a == b
  | .vNone, .vNone => true
  | _, _ => false

/-- Python `a < b` on pipeline values: numeric order on numbers,
code-point lexicographic order on strings, `TypeError` otherwise. -/
def ltVal : RawValue → RawValue → Except PyErr Bool
  | .vNum a, .vNum b => .ok (decide (a < b))
  | .vStr a, .vStr b => .ok (decide (a < b))
  | _, _ => .error .typeError

/-- Python `a > b` on pipeline values (the mirror order). -/
def gtVal : RawValue → RawValue → Except PyErr Bool
  | .vNum a, .vNum b => .ok (decide (b < a))
  | .vStr a, .vStr b => .ok (decide (b < a))
  | _, _ => .error .typeError

/-- The comparison expression `data[i][key] < data[j][key]`. -/
def cmpLt (data : List Entry) (key : String) (i j : Nat) : Except PyErr Bool :=
  match getItem (entryAt data i) key with
  | .error e => .error e
  | .ok a =>
    match getItem (entryAt data j) key with
    | .error e => .error e
    | .ok b => ltVal a b

/-- The comparison expression `data[i][key] > data[j][key]`. -/
def cmpGt (data : List Entry) (key : String) (i j : Nat) : Except PyErr Bool :=
  match getItem (entryAt data i) key with
  | .error e => .error e
  | .ok a =>
    match getItem (entryAt data j) key with
    | .error e => .error e
    | .ok b => gtVal a b

/-- The `if` condition of `find_support_levels` at index `i`:
`data[i]["low"] < data[i-1]["low"] and ... < data[i-2]["low"] and
... < data[i+1]["low"] and ... < data[i+2]["low"]`, with Python's
short-circuit `and` in source order. -/
def supportCond (data : List Entry) (i : Nat) : Except PyErr Bool :=
  match cmpLt data "low" i (i - 1) with
  | .error e => .error e
  | .ok false => .ok false
  | .ok true =>
    match cmpLt data "low" i (i - 2) with
    | .error e => .error e
    | .ok false => .ok false
    | .ok true =>
      match cmpLt data "low" i (i + 1) with
      | .error e => .error e
      | .ok false => .ok false
      | .ok true => cmpLt data "low" i (i + 2)

/-- The `if` condition of `find_resistance_levels` at index `i`
(same window, `>` on the `"high"` field). -/
def resistanceCond (data : List Entry) (i : Nat) : Except PyErr Bool :=
  match cmpGt data "high" i (i - 1) with
  | .error e => .error e
  | .ok false => .ok false
  | .ok true =>
    match cmpGt data "high" i (i - 2) with
    | .error e => .error e
    | .ok false => .ok false
    | .ok true =>
      match cmpGt data "high" i (i + 1) with
      | .error e => .error e
      | .ok false => .ok false
      | .ok true => cmpGt data "high" i (i + 2)

/-- The accumulation loop of `find_support_levels` over the index list
`range(2, len(data) - 2)`: appends `[data[i]["low"], data[i]["datetime"]]`
for every index passing `supportCond`. -/
def scanSupport (data : List Entry) : List Nat → Except PyErr (List Level)
  | [] => .ok []
  | i :: rest =>
    match supportCond data i with
    | .error e => .error e
    | .ok false => scanSupport data rest
    | .ok true =>
      match getItem (entryAt data i) "low" with
      | .error e => .error e
      | .ok p =>
        match getItem (entryAt data i) "datetime" with
        | .error e => .error e
        | .ok d =>
          match scanSupport data rest with
          | .error e => .error e
          | .ok tail => .ok ((p, d) :: tail)

/-- The accumulation loop of `find_resistance_levels`. -/
def scanResistance (data : List Entry) : List Nat → Except PyErr (List Level)
  | [] => .ok []
  | i :: rest =>
    match resistanceCond data i with
    | .error e => .error e
    | .ok false => scanResistance data rest
    | .ok true =>
      match getItem (entryAt data i) "high" with
      | .error e => .error e
      | .ok p =>
        match getItem (entryAt data i) "datetime" with
        | .error e => .error e
        | .ok d =>
          match scanResistance data rest with
          | .error e => .error e
          | .ok tail => .ok ((p, d) :: tail)

/-- Python list comparison `[a, b] < [c, d]`: first index whose elements
are not `==` decides by `<`; all-equal lists are not `<`. -/
def levelLt (x y : Level) : Except PyErr Bool :=
  if valEq x.1 y.1 then
    if valEq x.2 y.2 then .ok false
    else ltVal x.2 y.2
  else ltVal x.1 y.1

/-- Python list comparison `[a, b] > [c, d]`. -/
def levelGt (x y : Level) : Except PyErr Bool :=
  if valEq x.1 y.1 then
    if valEq x.2 y.2 then .ok false
    else gtVal x.2 y.2
  else gtVal x.1 y.1

/-- Python `min` over a non-empty list of levels: keeps the first element,
replaces it whenever a later element compares `<` to the current best. -/
def pyMin (best : Level) : List Level → Except PyErr Level
  | [] => .ok best
  | x :: rest =>
    match levelLt x best with
    | .error e => .error e
    | .ok true => pyMin x rest
    | .ok false => pyMin best rest

/-- Python `max` over a non-empty list of levels. -/
def pyMax (best : Level) : List Level → Except PyErr Level
  | [] => .ok best
  | x :: rest =>
    match levelGt x best with
    | .error e => .error e
    | .ok true => pyMax x rest
    | .ok false => pyMax best rest

/-- Result of one scan: the full list of levels (`global_only=False`) or
the single optional best level (`global_only=True`). -/
inductive ScanOut where
  | levels (ls : List Level)
  | best (l : Option Level)
  deriving DecidableEq, Repr

/-- `stockPriceSupportResistance.find_support_levels`, as a function of the
processed series it scans (the method obtains that series from
`get_processed_data`).  Loop over `range(2, len(data) - 2)`; in
`global_only` mode, `min(support_levels) if support_levels else None`. -/
def find_support_levels (data : List Entry) (global_only : Bool) :
    Except PyErr ScanOut :=
  match scanSupport data (List.range' 2 (data.length - 4)) with
  | .error e => .error e
  | .ok levels =>
    if global_only then
      match levels with
      | [] => .ok (.best none)
      | l :: ls =>
        match pyMin l ls with
        | .error e => .error e
        | .ok m => .ok (.best (some m))
    else .ok (.levels levels)

/-- `stockPriceSupportResistance.find_resistance_levels`, as a function of
the processed series it scans; `max(resistance_levels)` in global mode. -/
def find_resistance_levels (data : List Entry) (global_only : Bool) :
    Except PyErr ScanOut :=
  match scanResistance data (List.range' 2 (data.length - 4)) with
  | .error e => .error e
  | .ok levels =>
    if global_only then
      match levels with
      | [] => .ok (.best none)
      | l :: ls =>
        match pyMax l ls with
        | .error e => .error e
        | .ok m => .ok (.best (some m))
    else .ok (.levels levels)

/-! ## The normalizer (`getStockTimeSeries`) -/

/-- The coercion body applied to one dict value:
`try: float(value) / except ValueError: try: int(value) / except ValueError:
pass`.  On a string, `float` then `int` parse attempts, else the value is
kept; a number passes through `float` unchanged; `float(None)` raises
`TypeError`, which the `except ValueError` handlers do not catch. -/
def coerceVal (fp : String → Option ℚ) (ip : String → Option ℤ) :
    RawValue → Except PyErr RawValue
  | .vNum q => .ok (.vNum q)
  | .vNone => .error .typeError
  | .vStr s =>
    match fp s with
    | some q => .ok (.vNum q)
    | none =>
      match ip s with
      | some z => .ok (.vNum (z : ℚ))
      | none => .ok (.vStr s)

/-- The total value of `coerceVal` away from `None`: float parse, then int
parse, else the original value unchanged. -/
def pyCoerce (fp : String → Option ℚ) (ip : String → Option ℤ) :
    RawValue → RawValue
  | .vStr s =>
    match fp s with
    | some q => .vNum q
    | none =>
      match ip s with
      | some z => .vNum (z : ℚ)
      | none => .vStr s
  | v => v

/-- The per-record inner loop of `_convert_prices_to_numeric`: coerce every
value whose key is not `"datetime"`, keeping key order (in-place dict value
updates during iteration). -/
def coerceFields (fp : String → Option ℚ) (ip : String → Option ℤ) :
    Entry → Except PyErr Entry
  | [] => .ok []
  | (k, v) :: rest =>
    if k = "datetime" then
      match coerceFields fp ip rest with
      | .error e => .error e
      | .ok tail => .ok ((k, v) :: tail)
    else
      match coerceVal fp ip v with
      | .error e => .error e
      | .ok w =>
        match coerceFields fp ip rest with
        | .error e => .error e
        | .ok tail => .ok ((k, w) :: tail)

/-- The per-record body of `_convert_prices_to_numeric`: set
`entry["execution_timestamp"]` and `entry["ticker"]`, then run the coercion
loop over all fields of the updated record. -/
def normalizeEntry (fp : String → Option ℚ) (ip : String → Option ℤ)
    (symbol ts : String) (e : Entry) : Except PyErr Entry :=
  coerceFields fp ip (setK (setK e "execution_timestamp" (.vStr ts)) "ticker" (.vStr symbol))

/-- `getStockTimeSeries._convert_prices_to_numeric`: one shared execution
timestamp `ts` (computed once, before the loop over records) and the
requested `symbol` are stamped onto every record, then fields are coerced. -/
def convert_prices_to_numeric (fp : String → Option ℚ) (ip : String → Option ℤ)
    (symbol ts : String) (raw : List Entry) : Except PyErr (List Entry) :=
  raw.mapM (normalizeEntry fp ip symbol ts)

/-- Python truth of `value == "" or value is None` for one dict value. -/
def isEmptyVal : RawValue → Bool
  | .vStr s => s = ""
  | .vNone => true
  | .vNum _ => false

/-- `any(value == "" or value is None for value in entry.values())`. -/
def entryHasEmpty (e : Entry) : Bool := e.any fun kv => isEmptyVal kv.2

/-- `getStockTimeSeries._check_for_empty_data`: raise `ValueError` as soon
as some record has an empty-string or `None` value. -/
def check_for_empty_data (raw : List Entry) : Except PyErr Unit :=
  if raw.any entryHasEmpty then .error (.valueError "Empty data found in the dataset.")
  else .ok ()

/-- `getStockTimeSeries.get_processed_data`, as a function of what
`fetch_data` returned (`none` models Python `None`): reject a `None` or
empty batch, then `_check_for_empty_data`, then
`_convert_prices_to_numeric`. -/
def get_processed_data (fp : String → Option ℚ) (ip : String → Option ℤ)
    (symbol ts : String) (raw : Option (List Entry)) : Except PyErr (List Entry) :=
  match raw with
  | none => .error (.valueError "No data fetched from the API.")
  | some data =>
    if data.length = 0 then .error (.valueError "No data fetched from the API.")
    else
      match check_for_empty_data data with
      | .error e => .error e
      | .ok _ => convert_prices_to_numeric fp ip symbol ts data

/-! ## Pure characterization of the scan -/

/-- The spec's support rule at index `i`, over the series of lows `l`:
`l i` strictly below its four window neighbors. -/
def isSupportIdx (l : Nat → ℚ) (i : Nat) : Bool :=
  decide (l i < l (i - 2)) && decide (l i < l (i - 1)) &&
    decide (l i < l (i + 1)) && decide (l i < l (i + 2))

/-- The spec's resistance rule at index `i`, over the series of highs `h`:
`h i` strictly above its four window neighbors. -/
def isResistanceIdx (h : Nat → ℚ) (i : Nat) : Bool :=
  decide (h (i - 2) < h i) && decide (h (i - 1) < h i) &&
    decide (h (i + 1) < h i) && decide (h (i + 2) < h i)

/-- `data` carries the rational `l i` in field `key` of record `i`. -/
abbrev NumField (data : List Entry) (key : String) (l : Nat → ℚ) : Prop :=
  ∀ i, i < data.length → lookup (entryAt data i) key = some (.vNum (l i))

/-- `data` carries the value `d i` in field `key` of record `i`. -/
abbrev FieldVals (data : List Entry) (key : String) (d : Nat → RawValue) : Prop :=
  ∀ i, i < data.length → lookup (entryAt data i) key = some (d i)

lemma getItem_of_lookup {e : Entry} {key : String} {v : RawValue}
    (h : lookup e key = some v) : getItem e key = .ok v := by
  simp [getItem, h]

lemma supportCond_eval (data : List Entry) (l : Nat → ℚ) (i : Nat)
    (hl : NumField data "low" l) (h2 : 2 ≤ i) (hi : i + 2 < data.length) :
    supportCond data i = .ok (isSupportIdx l i) := by
  have e0 := getItem_of_lookup (hl i (by omega))
  have e1 := getItem_of_lookup (hl (i - 1) (by omega))
  have e2 := getItem_of_lookup (hl (i - 2) (by omega))
  have e3 := getItem_of_lookup (hl (i + 1) (by omega))
  have e4 := getItem_of_lookup (hl (i + 2) (by omega))
  simp only [supportCond, cmpLt, e0, e1, e2, e3, e4, ltVal, isSupportIdx]
  by_cases c1 : l i < l (i - 1) <;> by_cases c2 : l i < l (i - 2) <;>
    by_cases c3 : l i < l (i + 1) <;> by_cases c4 : l i < l (i + 2) <;>
    simp [c1, c2, c3, c4]

lemma resistanceCond_eval (data : List Entry) (h : Nat → ℚ) (i : Nat)
    (hh : NumField data "high" h) (h2 : 2 ≤ i) (hi : i + 2 < data.length) :
    resistanceCond data i = .ok (isResistanceIdx h i) := by
  have e0 := getItem_of_lookup (hh i (by omega))
  have e1 := getItem_of_lookup (hh (i - 1) (by omega))
  have e2 := getItem_of_lookup (hh (i - 2) (by omega))
  have e3 := getItem_of_lookup (hh (i + 1) (by omega))
  have e4 := getItem_of_lookup (hh (i + 2) (by omega))
  simp only [resistanceCond, cmpGt, e0, e1, e2, e3, e4, gtVal, isResistanceIdx]
  by_cases c1 : h (i - 1) < h i <;> by_cases c2 : h (i - 2) < h i <;>
    by_cases c3 : h (i + 1) < h i <;> by_cases c4 : h (i + 2) < h i <;>
    simp [c1, c2, c3, c4]

lemma scanSupport_eval (data : List Entry) (l : Nat → ℚ) (d : Nat → RawValue)
    (hl : NumField data "low" l) (hd : FieldVals data "datetime" d) :
    ∀ L : List Nat, (∀ i ∈ L, 2 ≤ i ∧ i + 2 < data.length) →
      scanSupport data L =
        .ok ((L.filter (fun i => isSupportIdx l i)).map (fun i => (.vNum (l i), d i)))
  | [], _ => rfl
  | i :: rest, hb => by
    have hbi := hb i (by simp)
    have ih := scanSupport_eval data l d hl hd rest (fun j hj => hb j (by simp [hj]))
    have hcond := supportCond_eval data l i hl hbi.1 hbi.2
    have e0 := getItem_of_lookup (hl i (by omega))
    have ed := getItem_of_lookup (hd i (by omega))
    cases hc : isSupportIdx l i <;>
      simp [scanSupport, hcond, hc, ih, e0, ed, List.filter_cons]

lemma scanResistance_eval (data : List Entry) (h : Nat → ℚ) (d : Nat → RawValue)
    (hh : NumField data "high" h) (hd : FieldVals data "datetime" d) :
    ∀ L : List Nat, (∀ i ∈ L, 2 ≤ i ∧ i + 2 < data.length) →
      scanResistance data L =
        .ok ((L.filter (fun i => isResistanceIdx h i)).map (fun i => (.vNum (h i), d i)))
  | [], _ => rfl
  | i :: rest, hb => by
    have hbi := hb i (by simp)
    have ih := scanResistance_eval data h d hh hd rest (fun j hj => hb j (by simp [hj]))
    have hcond := resistanceCond_eval data h i hh hbi.1 hbi.2
    have e0 := getItem_of_lookup (hh i (by omega))
    have ed := getItem_of_lookup (hd i (by omega))
    cases hc : isResistanceIdx h i <;>
      simp [scanResistance, hcond, hc, ih, e0, ed, List.filter_cons]

lemma range'_window_bounds (n : Nat) :
    ∀ i ∈ List.range' 2 (n - 4), 2 ≤ i ∧ i + 2 < n := by
  intro i hi
  have := List.mem_range'_1.mp hi
  omega

/-! ## Claims C1 and C2: the all-levels scan -/

/-- Claim C1: in all-levels mode, `find_support_levels` returns exactly the
`(price, timestamp)` pairs of the indices `i` of `range(2, n-2)` (that is,
`2 ≤ i ≤ n-3`, 0-based) whose low is strictly below the lows at `i-2`,
`i-1`, `i+1` and `i+2` (ties never qualify), in ascending index order. -/
theorem C1_support_all_levels (data : List Entry) (l : Nat → ℚ) (d : Nat → RawValue)
    (hl : NumField data "low" l) (hd : FieldVals data "datetime" d) :
    find_support_levels data false =
      .ok (.levels (((List.range' 2 (data.length - 4)).filter (fun i => isSupportIdx l i)).map
        (fun i => (RawValue.vNum (l i), d i)))) := by
  have hsc := scanSupport_eval data l d hl hd (List.range' 2 (data.length - 4))
    (range'_window_bounds data.length)
  simp [find_support_levels, hsc]

/-- The series of lows `[5, 4, 3, 2, 3, 4, 5]` from the spec's example. -/
def exLows : Nat → ℚ := fun i => ([5, 4, 3, 2, 3, 4, 5] : List ℚ).getD i 0

/-- Timestamps `"t0", …, "t6"` for the 7-point example series. -/
def exDts : Nat → RawValue := fun i =>
  RawValue.vStr ((["t0", "t1", "t2", "t3", "t4", "t5", "t6"] : List String).getD i "")

/-- The highs `[1, 2, 3, 4, 3, 2, 1]` from the spec's resistance example. -/
def exHighs : Nat → ℚ := fun i => ([1, 2, 3, 4, 3, 2, 1] : List ℚ).getD i 0

/-- The spec's 7-point example series: `low = [5,4,3,2,3,4,5]`,
`high = [1,2,3,4,3,2,1]`. -/
def exData : List Entry :=
  (List.range 7).map fun i =>
    [("datetime", exDts i), ("low", RawValue.vNum (exLows i)), ("high", RawValue.vNum (exHighs i))]

theorem C1_support_all_levels_witness :
    find_support_levels exData false =
      .ok (.levels [(RawValue.vNum 2, RawValue.vStr "t3")]) := by
  have h := C1_support_all_levels exData exLows exDts (by decide) (by decide)
  rw [h]
  rfl

/-- Claim C2: the resistance rule is the exact mirror: in all-levels mode,
`find_resistance_levels` returns exactly the `(price, timestamp)` pairs of
the indices `i` (`2 ≤ i ≤ n-3`) whose high is strictly above the highs at
`i-2`, `i-1`, `i+1` and `i+2`, in ascending index order. -/
theorem C2_resistance_all_levels (data : List Entry) (h : Nat → ℚ) (d : Nat → RawValue)
    (hh : NumField data "high" h) (hd : FieldVals data "datetime" d) :
    find_resistance_levels data false =
      .ok (.levels (((List.range' 2 (data.length - 4)).filter (fun i => isResistanceIdx h i)).map
        (fun i => (RawValue.vNum (h i), d i)))) := by
  have hsc := scanResistance_eval data h d hh hd (List.range' 2 (data.length - 4))
    (range'_window_bounds data.length)
  simp [find_resistance_levels, hsc]

theorem C2_resistance_all_levels_witness :
    find_resistance_levels exData false =
      .ok (.levels [(RawValue.vNum 4, RawValue.vStr "t3")]) := by
  have h := C2_resistance_all_levels exData exHighs exDts (by decide) (by decide)
  rw [h]
  rfl

/-! ## Claim C4: series shorter than 5 points -/

/-- Claim C4: on a processed series of fewer than 5 points, both scans
return the empty list in all-levels mode and `None` in global-only mode,
raising no error (the loop over `range(2, n-2)` never runs). -/
theorem C4_short_series (data : List Entry) (h : data.length < 5) :
    find_support_levels data false = .ok (.levels []) ∧
    find_support_levels data true = .ok (.best none) ∧
    find_resistance_levels data false = .ok (.levels []) ∧
    find_resistance_levels data true = .ok (.best none) := by
  have h4 : data.length - 4 = 0 := by omega
  refine ⟨?_, ?_, ?_, ?_⟩ <;>
    simp [find_support_levels, find_resistance_levels, h4, scanSupport, scanResistance]

theorem C4_short_series_witness :
    find_support_levels (exData.take 4) false = .ok (.levels []) ∧
    find_support_levels (exData.take 4) true = .ok (.best none) ∧
    find_resistance_levels (exData.take 4) false = .ok (.levels []) ∧
    find_resistance_levels (exData.take 4) true = .ok (.best none) :=
  C4_short_series (exData.take 4) (by decide)

/-! ## Lexicographic order on `(price, timestamp)` pairs -/

/-- Strict lexicographic order on `(price, timestamp string)` pairs: the
order Python's 2-element list comparison realizes on levels. -/
def lexLt (x y : ℚ × String) : Prop := x.1 < y.1 ∨ (x.1 = y.1 ∧ x.2 < y.2)

/-- Reflexive lexicographic order on `(price, timestamp string)` pairs. -/
def lexLe (x y : ℚ × String) : Prop := x.1 < y.1 ∨ (x.1 = y.1 ∧ x.2 ≤ y.2)

instance (x y : ℚ × String) : Decidable (lexLt x y) := by unfold lexLt; infer_instance

instance (x y : ℚ × String) : Decidable (lexLe x y) := by unfold lexLe; infer_instance

/-- The level `[price, datetime]` holding the pair `x`. -/
def toLevel (x : ℚ × String) : Level := (RawValue.vNum x.1, RawValue.vStr x.2)

lemma lexLe_refl (x : ℚ × String) : lexLe x x := Or.inr ⟨rfl, le_refl _⟩

lemma lexLt_imp_le {x y : ℚ × String} (h : lexLt x y) : lexLe x y := by
  rcases h with h | ⟨h1, h2⟩
  · exact Or.inl h
  · exact Or.inr ⟨h1, le_of_lt h2⟩

lemma lexLe_of_not_lt {x y : ℚ × String} (h : ¬ lexLt x y) : lexLe y x := by
  unfold lexLt at h
  push_neg at h
  rcases lt_or_eq_of_le h.1 with h1 | h1
  · exact Or.inl h1
  · exact Or.inr ⟨h1, h.2 h1.symm⟩

lemma lexLe_trans {x y z : ℚ × String} (hxy : lexLe x y) (hyz : lexLe y z) :
    lexLe x z := by
  rcases hxy with h | ⟨h1, h2⟩ <;> rcases hyz with g | ⟨g1, g2⟩
  · exact Or.inl (lt_trans h g)
  · exact Or.inl (g1 ▸ h)
  · exact Or.inl (h1 ▸ g)
  · exact Or.inr ⟨h1.trans g1, le_trans h2 g2⟩

lemma lexLe_fst {x y : ℚ × String} (h : lexLe x y) : x.1 ≤ y.1 := by
  rcases h with h | ⟨h1, _⟩
  · exact le_of_lt h
  · exact le_of_eq h1

lemma levelLt_toLevel (x y : ℚ × String) :
    levelLt (toLevel x) (toLevel y) = .ok (decide (lexLt x y)) := by
  simp only [levelLt, toLevel, valEq, ltVal, lexLt]
  by_cases h1 : x.1 = y.1
  · by_cases h2 : x.2 = y.2
    · simp [h1, h2, lt_irrefl]
    · simp [h1, h2, lt_irrefl]
  · simp [h1]

lemma levelGt_toLevel (x y : ℚ × String) :
    levelGt (toLevel x) (toLevel y) = .ok (decide (lexLt y x)) := by
  simp only [levelGt, toLevel, valEq, gtVal, lexLt]
  by_cases h1 : x.1 = y.1
  · by_cases h2 : x.2 = y.2
    · simp [h1, h2, lt_irrefl]
    · have h2s : ¬ y.2 = x.2 := fun hc => h2 hc.symm
      simp [h1, h2, h2s, lt_irrefl]
  · have h1s : ¬ y.1 = x.1 := fun hc => h1 hc.symm
    simp [h1, h1s]

lemma pyMin_lex : ∀ (L : List (ℚ × String)) (best : ℚ × String),
    ∃ m, pyMin (toLevel best) (L.map toLevel) = .ok (toLevel m) ∧
      (m = best ∨ m ∈ L) ∧ lexLe m best ∧ ∀ y ∈ L, lexLe m y
  | [], best => ⟨best, rfl, Or.inl rfl, lexLe_refl best, by simp⟩
  | x :: rest, best => by
    have hlt := levelLt_toLevel x best
    by_cases hc : lexLt x best
    · obtain ⟨m, hm, hmem, hle, hall⟩ := pyMin_lex rest x
      refine ⟨m, ?_, ?_, ?_, ?_⟩
      · simpa [pyMin, hlt, hc] using hm
      · rcases hmem with hmem | hmem
        · exact Or.inr (by simp [hmem])
        · exact Or.inr (by simp [hmem])
      · exact lexLe_trans hle (lexLt_imp_le hc)
      · intro y hy
        rcases List.mem_cons.mp hy with hy | hy
        · exact hy ▸ hle
        · exact hall y hy
    · obtain ⟨m, hm, hmem, hle, hall⟩ := pyMin_lex rest best
      refine ⟨m, ?_, ?_, ?_, ?_⟩
      · simpa [pyMin, hlt, hc] using hm
      · rcases hmem with hmem | hmem
        · exact Or.inl hmem
        · exact Or.inr (by simp [hmem])
      · exact hle
      · intro y hy
        rcases List.mem_cons.mp hy with hy | hy
        · exact hy ▸ lexLe_trans hle (lexLe_of_not_lt hc)
        · exact hall y hy

lemma pyMax_lex : ∀ (L : List (ℚ × String)) (best : ℚ × String),
    ∃ m, pyMax (toLevel best) (L.map toLevel) = .ok (toLevel m) ∧
      (m = best ∨ m ∈ L) ∧ lexLe best m ∧ ∀ y ∈ L, lexLe y m
  | [], best => ⟨best, rfl, Or.inl rfl, lexLe_refl best, by simp⟩
  | x :: rest, best => by
    have hgt := levelGt_toLevel x best
    by_cases hc : lexLt best x
    · obtain ⟨m, hm, hmem, hle, hall⟩ := pyMax_lex rest x
      refine ⟨m, ?_, ?_, ?_, ?_⟩
      · simpa [pyMax, hgt, hc] using hm
      · rcases hmem with hmem | hmem
        · exact Or.inr (by simp [hmem])
        · exact Or.inr (by simp [hmem])
      · exact lexLe_trans (lexLt_imp_le hc) hle
      · intro y hy
        rcases List.mem_cons.mp hy with hy | hy
        · exact hy ▸ hle
        · exact hall y hy
    · obtain ⟨m, hm, hmem, hle, hall⟩ := pyMax_lex rest best
      refine ⟨m, ?_, ?_, ?_, ?_⟩
      · simpa [pyMax, hgt, hc] using hm
      · rcases hmem with hmem | hmem
        · exact Or.inl hmem
        · exact Or.inr (by simp [hmem])
      · exact hle
      · intro y hy
        rcases List.mem_cons.mp hy with hy | hy
        · exact hy ▸ lexLe_trans (lexLe_of_not_lt hc) hle
        · exact hall y hy

/-! ## Claim C3: global-only mode -/

/-- The `(price, timestamp)` pairs of the qualifying support points of a
series of `n` lows `l` with timestamps `t`. -/
def supportPairs (l : Nat → ℚ) (t : Nat → String) (n : Nat) : List (ℚ × String) :=
  ((List.range' 2 (n - 4)).filter (fun i => isSupportIdx l i)).map (fun i => (l i, t i))

/-- The `(price, timestamp)` pairs of the qualifying resistance points of a
series of `n` highs `h` with timestamps `t`. -/
def resistancePairs (h : Nat → ℚ) (t : Nat → String) (n : Nat) : List (ℚ × String) :=
  ((List.range' 2 (n - 4)).filter (fun i => isResistanceIdx h i)).map (fun i => (h i, t i))

/-- Claim C3: in global-only mode, when no point qualifies both scans
return `None`; when some point qualifies, `find_support_levels` returns
exactly one level, a qualifying `(price, timestamp)` pair whose price is
the minimum qualifying price and which is the lexicographic minimum of the
qualifying `(price, timestamp string)` pairs (`find_resistance_levels`:
maximum price, lexicographic maximum). -/
theorem C3_global_only (data : List Entry) (l hq : Nat → ℚ) (t : Nat → String)
    (hl : NumField data "low" l) (hh : NumField data "high" hq)
    (hd : FieldVals data "datetime" (fun i => .vStr (t i))) :
    (supportPairs l t data.length = [] →
      find_support_levels data true = .ok (.best none)) ∧
    (supportPairs l t data.length ≠ [] →
      ∃ m, find_support_levels data true = .ok (.best (some (toLevel m))) ∧
        m ∈ supportPairs l t data.length ∧
        (∀ y ∈ supportPairs l t data.length, m.1 ≤ y.1) ∧
        (∀ y ∈ supportPairs l t data.length, lexLe m y)) ∧
    (resistancePairs hq t data.length = [] →
      find_resistance_levels data true = .ok (.best none)) ∧
    (resistancePairs hq t data.length ≠ [] →
      ∃ m, find_resistance_levels data true = .ok (.best (some (toLevel m))) ∧
        m ∈ resistancePairs hq t data.length ∧
        (∀ y ∈ resistancePairs hq t data.length, y.1 ≤ m.1) ∧
        (∀ y ∈ resistancePairs hq t data.length, lexLe y m)) := by
  have hsc := scanSupport_eval data l (fun i => .vStr (t i)) hl hd
    (List.range' 2 (data.length - 4)) (range'_window_bounds data.length)
  have hrc := scanResistance_eval data hq (fun i => .vStr (t i)) hh hd
    (List.range' 2 (data.length - 4)) (range'_window_bounds data.length)
  have hmapS : ((List.range' 2 (data.length - 4)).filter (fun i => isSupportIdx l i)).map
      (fun i => ((RawValue.vNum (l i), RawValue.vStr (t i)) : Level)) =
      (supportPairs l t data.length).map toLevel := by
    simp [supportPairs, List.map_map]
    intros
    rfl
  have hmapR : ((List.range' 2 (data.length - 4)).filter (fun i => isResistanceIdx hq i)).map
      (fun i => ((RawValue.vNum (hq i), RawValue.vStr (t i)) : Level)) =
      (resistancePairs hq t data.length).map toLevel := by
    simp [resistancePairs, List.map_map]
    intros
    rfl
  refine ⟨?_, ?_, ?_, ?_⟩
  · intro hemp
    simp [find_support_levels, hsc, hmapS, hemp]
  · intro hne
    rcases hp : supportPairs l t data.length with _ | ⟨p, ps⟩
    · exact absurd hp hne
    · obtain ⟨m, hm, hmem, hle, hall⟩ := pyMin_lex ps p
      refine ⟨m, ?_, ?_, ?_, ?_⟩
      · simp [find_support_levels, hsc, hmapS, hp, hm]
      · rcases hmem with hmem | hmem
        · simp [hp, hmem]
        · simp [hp, hmem]
      · intro y hy
        rcases List.mem_cons.mp hy with hy | hy
        · exact hy ▸ lexLe_fst hle
        · exact lexLe_fst (hall y hy)
      · intro y hy
        rcases List.mem_cons.mp hy with hy | hy
        · exact hy ▸ hle
        · exact hall y hy
  · intro hemp
    simp [find_resistance_levels, hrc, hmapR, hemp]
  · intro hne
    rcases hp : resistancePairs hq t data.length with _ | ⟨p, ps⟩
    · exact absurd hp hne
    · obtain ⟨m, hm, hmem, hle, hall⟩ := pyMax_lex ps p
      refine ⟨m, ?_, ?_, ?_, ?_⟩
      · simp [find_resistance_levels, hrc, hmapR, hp, hm]
      · rcases hmem with hmem | hmem
        · simp [hp, hmem]
        · simp [hp, hmem]
      · intro y hy
        rcases List.mem_cons.mp hy with hy | hy
        · exact hy ▸ lexLe_fst hle
        · exact lexLe_fst (hall y hy)
      · intro y hy
        rcases List.mem_cons.mp hy with hy | hy
        · exact hy ▸ hle
        · exact hall y hy

/-- Lows `[5, 4, 1, 4, 5, 4, 1, 4, 5]`: two qualifying support points
(indices 2 and 6) sharing the extreme price 1. -/
def exLows9 : Nat → ℚ := fun i => ([5, 4, 1, 4, 5, 4, 1, 4, 5] : List ℚ).getD i 0

/-- Highs `[1, 2, 5, 2, 1, 2, 5, 2, 1]`: two qualifying resistance points
(indices 2 and 6) sharing the extreme price 5. -/
def exHighs9 : Nat → ℚ := fun i => ([1, 2, 5, 2, 1, 2, 5, 2, 1] : List ℚ).getD i 0

/-- Timestamps `"t0", …, "t8"` for the 9-point example series. -/
def exTs9 : Nat → String := fun i =>
  (["t0", "t1", "t2", "t3", "t4", "t5", "t6", "t7", "t8"] : List String).getD i ""

/-- A 9-point series with tied extreme support and resistance prices. -/
def exData9 : List Entry :=
  (List.range 9).map fun i =>
    [("datetime", RawValue.vStr (exTs9 i)), ("low", RawValue.vNum (exLows9 i)),
     ("high", RawValue.vNum (exHighs9 i))]

theorem C3_global_only_witness :
    (∃ m, find_support_levels exData9 true = .ok (.best (some (toLevel m))) ∧
      m ∈ supportPairs exLows9 exTs9 exData9.length ∧
      (∀ y ∈ supportPairs exLows9 exTs9 exData9.length, m.1 ≤ y.1) ∧
      (∀ y ∈ supportPairs exLows9 exTs9 exData9.length, lexLe m y)) ∧
    (∃ m, find_resistance_levels exData9 true = .ok (.best (some (toLevel m))) ∧
      m ∈ resistancePairs exHighs9 exTs9 exData9.length ∧
      (∀ y ∈ resistancePairs exHighs9 exTs9 exData9.length, y.1 ≤ m.1) ∧
      (∀ y ∈ resistancePairs exHighs9 exTs9 exData9.length, lexLe y m)) := by
  have h := C3_global_only exData9 exLows9 exHighs9 exTs9 (by decide) (by decide) (by decide)
  exact ⟨h.2.1 (by decide), h.2.2.2 (by decide)⟩

/-! ## Claim C9: flagged indices are at least 3 apart -/

lemma supportCond_true_parts {data : List Entry} {i : Nat}
    (h : supportCond data i = .ok true) :
    cmpLt data "low" i (i - 1) = .ok true ∧ cmpLt data "low" i (i - 2) = .ok true ∧
    cmpLt data "low" i (i + 1) = .ok true ∧ cmpLt data "low" i (i + 2) = .ok true := by
  unfold supportCond at h
  repeat' split at h
  all_goals simp_all

lemma resistanceCond_true_parts {data : List Entry} {i : Nat}
    (h : resistanceCond data i = .ok true) :
    cmpGt data "high" i (i - 1) = .ok true ∧ cmpGt data "high" i (i - 2) = .ok true ∧
    cmpGt data "high" i (i + 1) = .ok true ∧ cmpGt data "high" i (i + 2) = .ok true := by
  unfold resistanceCond at h
  repeat' split at h
  all_goals simp_all

lemma cmpLt_asymm {data : List Entry} {key : String} {i j : Nat}
    (h1 : cmpLt data key i j = .ok true) (h2 : cmpLt data key j i = .ok true) :
    False := by
  unfold cmpLt at h1 h2
  rcases ha : getItem (entryAt data i) key with e | a <;> rw [ha] at h1 h2
  · simp at h1
  · rcases hb : getItem (entryAt data j) key with e | b <;> rw [hb] at h1 h2
    · simp at h1
    · cases a <;> cases b <;> simp [ltVal] at h1 h2
      · exact absurd h2 (lt_asymm h1)
      · exact absurd h2 (lt_asymm h1)

lemma cmpGt_asymm {data : List Entry} {key : String} {i j : Nat}
    (h1 : cmpGt data key i j = .ok true) (h2 : cmpGt data key j i = .ok true) :
    False := by
  unfold cmpGt at h1 h2
  rcases ha : getItem (entryAt data i) key with e | a <;> rw [ha] at h1 h2
  · simp at h1
  · rcases hb : getItem (entryAt data j) key with e | b <;> rw [hb] at h1 h2
    · simp at h1
    · cases a <;> cases b <;> simp [gtVal] at h1 h2
      · exact absurd h2 (lt_asymm h1)
      · exact absurd h2 (lt_asymm h1)

/-- Claim C9: two distinct indices at which the support condition holds
differ by at least 3, and likewise for the resistance condition — indices
within two positions of each other can never both pass the strict 5-point
window test. -/
theorem C9_index_gap :
    (∀ (data : List Entry) (i j : Nat), i < j →
      supportCond data i = .ok true → supportCond data j = .ok true → i + 3 ≤ j) ∧
    (∀ (data : List Entry) (i j : Nat), i < j →
      resistanceCond data i = .ok true → resistanceCond data j = .ok true → i + 3 ≤ j) := by
  constructor
  · intro data i j hij hi hj
    by_contra hlt
    obtain ⟨_, _, hi1, hi2⟩ := supportCond_true_parts hi
    obtain ⟨hj1, hj2, _, _⟩ := supportCond_true_parts hj
    have hcase : j = i + 1 ∨ j = i + 2 := by omega
    rcases hcase with hc | hc
    · subst hc
      exact cmpLt_asymm hi1 hj1
    · subst hc
      exact cmpLt_asymm hi2 hj2
  · intro data i j hij hi hj
    by_contra hlt
    obtain ⟨_, _, hi1, hi2⟩ := resistanceCond_true_parts hi
    obtain ⟨hj1, hj2, _, _⟩ := resistanceCond_true_parts hj
    have hcase : j = i + 1 ∨ j = i + 2 := by omega
    rcases hcase with hc | hc
    · subst hc
      exact cmpGt_asymm hi1 hj1
    · subst hc
      exact cmpGt_asymm hi2 hj2

theorem C9_index_gap_witness : 2 + 3 ≤ 6 ∧ 2 + 3 ≤ 6 :=
  ⟨C9_index_gap.1 exData9 2 6 (by omega) (by rfl) (by rfl),
   C9_index_gap.2 exData9 2 6 (by omega) (by rfl) (by rfl)⟩

/-! ## Normalizer lemmas -/

/-- The pure per-record effect of `_convert_prices_to_numeric` on a record
with no `None` values: coerce every field whose key is not `"datetime"`. -/
def entMap (fp : String → Option ℚ) (ip : String → Option ℤ) (e : Entry) : Entry :=
  e.map fun kv => (kv.1, if kv.1 = "datetime" then kv.2 else pyCoerce fp ip kv.2)

/-- The pure per-record effect of `_convert_prices_to_numeric`: stamp the
shared timestamp and the symbol, then coerce the non-`"datetime"` fields. -/
def normEntryPure (fp : String → Option ℚ) (ip : String → Option ℤ)
    (symbol ts : String) (e : Entry) : Entry :=
  entMap fp ip (setK (setK e "execution_timestamp" (.vStr ts)) "ticker" (.vStr symbol))

lemma coerceVal_ok (fp : String → Option ℚ) (ip : String → Option ℤ)
    {v : RawValue} (h : v ≠ .vNone) :
    coerceVal fp ip v = .ok (pyCoerce fp ip v) := by
  cases v with
  | vStr s => cases hf : fp s <;> cases hi : ip s <;> simp [coerceVal, pyCoerce, hf, hi]
  | vNum q => simp [coerceVal, pyCoerce]
  | vNone => exact absurd rfl h

lemma coerceFields_ok (fp : String → Option ℚ) (ip : String → Option ℤ) :
    ∀ e : Entry, (∀ kv ∈ e, kv.2 ≠ RawValue.vNone) →
      coerceFields fp ip e = .ok (entMap fp ip e)
  | [], _ => rfl
  | (k, v) :: rest, h => by
    have ih := coerceFields_ok fp ip rest (fun kv hkv => h kv (by simp [hkv]))
    by_cases hk : k = "datetime"
    · simp [coerceFields, hk, ih, entMap]
    · have hv : v ≠ RawValue.vNone := h (k, v) (by simp)
      simp [coerceFields, hk, coerceVal_ok fp ip hv, ih, entMap]

lemma setK_val_mem {e : Entry} {key : String} {v : RawValue} :
    ∀ kv ∈ setK e key v, kv.2 = v ∨ kv ∈ e := by
  induction e with
  | nil => intro kv hkv; simp [setK] at hkv; simp [hkv]
  | cons hd tl ih =>
    intro kv hkv
    simp only [setK] at hkv
    by_cases hk : hd.1 = key
    · rw [if_pos (by simp [hk])] at hkv
      rcases List.mem_cons.mp hkv with h | h
      · simp [h]
      · exact Or.inr (by simp [h])
    · rw [if_neg (by simpa using hk)] at hkv
      rcases List.mem_cons.mp hkv with h | h
      · exact Or.inr (by simp [h])
      · rcases ih kv h with h2 | h2
        · exact Or.inl h2
        · exact Or.inr (by simp [h2])

lemma normalizeEntry_ok (fp : String → Option ℚ) (ip : String → Option ℤ)
    (symbol ts : String) {e : Entry} (h : ∀ kv ∈ e, kv.2 ≠ RawValue.vNone) :
    normalizeEntry fp ip symbol ts e = .ok (normEntryPure fp ip symbol ts e) := by
  have h1 : ∀ kv ∈ setK e "execution_timestamp" (.vStr ts), kv.2 ≠ RawValue.vNone := by
    intro kv hkv
    rcases setK_val_mem kv hkv with h2 | h2
    · simp [h2]
    · exact h kv h2
  have h2 : ∀ kv ∈ setK (setK e "execution_timestamp" (.vStr ts)) "ticker" (.vStr symbol),
      kv.2 ≠ RawValue.vNone := by
    intro kv hkv
    rcases setK_val_mem kv hkv with h3 | h3
    · simp [h3]
    · exact h1 kv h3
  exact coerceFields_ok fp ip _ h2

lemma convert_ok (fp : String → Option ℚ) (ip : String → Option ℤ)
    (symbol ts : String) :
    ∀ raw : List Entry, (∀ e ∈ raw, ∀ kv ∈ e, kv.2 ≠ RawValue.vNone) →
      convert_prices_to_numeric fp ip symbol ts raw =
        .ok (raw.map (normEntryPure fp ip symbol ts))
  | [], _ => rfl
  | e :: rest, h => by
    have ih := convert_ok fp ip symbol ts rest (fun x hx => h x (by simp [hx]))
    have he := normalizeEntry_ok fp ip symbol ts (h e (by simp))
    simp only [convert_prices_to_numeric] at ih ⊢
    rw [List.mapM_cons, he, ih]
    rfl

lemma lookup_setK_self (e : Entry) (key : String) (v : RawValue) :
    lookup (setK e key v) key = some v := by
  induction e with
  | nil => simp [setK, lookup]
  | cons hd tl ih =>
    simp only [setK]
    by_cases hk : hd.1 = key
    · rw [if_pos (by simp [hk])]
      simp [lookup]
    · rw [if_neg (by simpa using hk)]
      simp [lookup, hk, ih]

lemma lookup_setK_other (e : Entry) {key other : String} (v : RawValue)
    (h : other ≠ key) : lookup (setK e key v) other = lookup e other := by
  induction e with
  | nil =>
    simp only [setK, lookup]
    rw [if_neg (fun hc => h hc.symm)]
  | cons hd tl ih =>
    simp only [setK]
    by_cases hk : hd.1 = key
    · rw [if_pos (by simp [hk])]
      simp only [lookup]
      rw [if_neg (fun hc => h hc.symm), if_neg (by rw [hk]; exact fun hc => h hc.symm)]
    · rw [if_neg (by simpa using hk)]
      simp only [lookup]
      by_cases ho : hd.1 = other
      · simp [ho]
      · simp [ho, ih]

lemma lookup_entMap (fp : String → Option ℚ) (ip : String → Option ℤ) :
    ∀ (e : Entry) (key : String),
      lookup (entMap fp ip e) key = (lookup e key).map
        (fun v => if key = "datetime" then v else pyCoerce fp ip v)
  | [], _ => rfl
  | (k, v) :: rest, key => by
    by_cases hk : k = key
    · subst hk
      simp [entMap, lookup]
    · simp only [entMap, List.map_cons, lookup, hk, if_neg hk, if_false]
      exact lookup_entMap fp ip rest key

lemma lookup_normEntryPure (fp : String → Option ℚ) (ip : String → Option ℤ)
    (symbol ts : String) (e : Entry) {key : String}
    (h1 : key ≠ "execution_timestamp") (h2 : key ≠ "ticker") :
    lookup (normEntryPure fp ip symbol ts e) key = (lookup e key).map
      (fun v => if key = "datetime" then v else pyCoerce fp ip v) := by
  rw [normEntryPure, lookup_entMap, lookup_setK_other _ _ h2, lookup_setK_other _ _ h1]

lemma lookup_normEntryPure_ticker (fp : String → Option ℚ) (ip : String → Option ℤ)
    (symbol ts : String) (e : Entry) :
    lookup (normEntryPure fp ip symbol ts e) "ticker" =
      some (pyCoerce fp ip (.vStr symbol)) := by
  rw [normEntryPure, lookup_entMap, lookup_setK_self]
  rfl

lemma lookup_normEntryPure_ts (fp : String → Option ℚ) (ip : String → Option ℤ)
    (symbol ts : String) (e : Entry) :
    lookup (normEntryPure fp ip symbol ts e) "execution_timestamp" =
      some (pyCoerce fp ip (.vStr ts)) := by
  rw [normEntryPure, lookup_entMap, lookup_setK_other _ _ (by decide),
    lookup_setK_self]
  rfl

/-! ## Claim C5: batch validation -/

lemma no_none_of_not_empty {raw : List Entry} (h : raw.any entryHasEmpty = false) :
    ∀ e ∈ raw, ∀ kv ∈ e, kv.2 ≠ RawValue.vNone := by
  intro e he kv hkv hc
  rw [List.any_eq_false] at h
  have h2 := h e he
  rw [entryHasEmpty, List.any_eq_true] at h2
  push_neg at h2
  have h3 := h2 kv hkv
  rw [hc] at h3
  exact h3 rfl

/-- The rejection condition of `get_processed_data`: the fetch returned
`None` or zero records, or some record has an empty-string or `None`
value in some field. -/
def badBatch : Option (List Entry) → Bool
  | none => true
  | some l => decide (l.length = 0) || l.any entryHasEmpty

/-- Claim C5: `get_processed_data` raises a `ValueError` exactly when the
fetched batch is `None`/empty or some record has an empty/absent value,
and succeeds otherwise (no other error can escape).  The theorem holds for
every parse semantics `fp`/`ip` and the error does not depend on them: the
emptiness check decides the outcome before any coercion runs, rejecting
the batch atomically. -/
theorem C5_validation (fp : String → Option ℚ) (ip : String → Option ℤ)
    (symbol ts : String) (raw : Option (List Entry)) :
    (badBatch raw = true →
      ∃ msg, get_processed_data fp ip symbol ts raw = .error (.valueError msg)) ∧
    (badBatch raw = false →
      ∃ out, get_processed_data fp ip symbol ts raw = .ok out) := by
  constructor
  · intro hb
    cases raw with
    | none => exact ⟨"No data fetched from the API.", rfl⟩
    | some l =>
      simp only [badBatch, Bool.or_eq_true, decide_eq_true_eq] at hb
      by_cases hlen : l.length = 0
      · exact ⟨"No data fetched from the API.", by simp [get_processed_data, hlen]⟩
      · have hany : l.any entryHasEmpty = true := by
          rcases hb with hb | hb
          · exact absurd hb hlen
          · exact hb
        exact ⟨"Empty data found in the dataset.",
          by simp [get_processed_data, hlen, check_for_empty_data, hany]⟩
  · intro hb
    cases raw with
    | none => simp [badBatch] at hb
    | some l =>
      simp only [badBatch, Bool.or_eq_false_iff, decide_eq_false_iff_not] at hb
      refine ⟨l.map (normEntryPure fp ip symbol ts), ?_⟩
      simp [get_processed_data, hb.1, check_for_empty_data, hb.2,
        convert_ok fp ip symbol ts l (no_none_of_not_empty hb.2)]

/-- A batch whose second record has an empty-string field. -/
def exBadBatch : List Entry :=
  [[("datetime", RawValue.vStr "d0"), ("open", RawValue.vStr "1")],
   [("datetime", RawValue.vStr "d1"), ("open", RawValue.vStr "")]]

/-- A well-formed one-record batch. -/
def exGoodBatch : List Entry :=
  [[("datetime", RawValue.vStr "d0"), ("low", RawValue.vNum 1),
    ("high", RawValue.vNum 2)]]

theorem C5_validation_witness :
    (∃ msg, get_processed_data (fun _ => none) (fun _ => none) "A" "T"
      (some exBadBatch) = .error (.valueError msg)) ∧
    (∃ out, get_processed_data (fun _ => none) (fun _ => none) "A" "T"
      (some exGoodBatch) = .ok out) :=
  ⟨(C5_validation (fun _ => none) (fun _ => none) "A" "T" (some exBadBatch)).1 (by decide),
   (C5_validation (fun _ => none) (fun _ => none) "A" "T" (some exGoodBatch)).2 (by decide)⟩

/-! ## Claims C6 and C10: field coercion and provenance stamping -/

/-- Claim C6: on a batch of records whose values are strings or numbers,
normalization succeeds; every field except the one keyed `"datetime"` is
coerced by the float-then-int-else-unchanged attempt `pyCoerce`, the
`"datetime"` field is left as-is, and every record gets the same shared
retrieval timestamp and the requested symbol (both themselves subject to
the same coercion attempt). -/
theorem C6_normalization (fp : String → Option ℚ) (ip : String → Option ℤ)
    (symbol ts : String) (raw : List Entry)
    (h : ∀ e ∈ raw, ∀ kv ∈ e, kv.2 ≠ RawValue.vNone) :
    ∃ out, convert_prices_to_numeric fp ip symbol ts raw = .ok out ∧
      out.length = raw.length ∧
      (∀ e ∈ out, lookup e "execution_timestamp" = some (pyCoerce fp ip (.vStr ts)) ∧
        lookup e "ticker" = some (pyCoerce fp ip (.vStr symbol))) ∧
      (∀ i, i < raw.length → ∀ key, key ≠ "execution_timestamp" → key ≠ "ticker" →
        lookup (out.getD i []) key = (lookup (raw.getD i []) key).map
          (fun v => if key = "datetime" then v else pyCoerce fp ip v)) := by
  refine ⟨raw.map (normEntryPure fp ip symbol ts),
    convert_ok fp ip symbol ts raw h, by simp, ?_, ?_⟩
  · intro e he
    obtain ⟨e0, _, rfl⟩ := List.mem_map.mp he
    exact ⟨lookup_normEntryPure_ts fp ip symbol ts e0,
      lookup_normEntryPure_ticker fp ip symbol ts e0⟩
  · intro i hi key h1 h2
    have hlen : i < (raw.map (normEntryPure fp ip symbol ts)).length := by simpa using hi
    rw [List.getD_eq_getElem _ _ hlen, List.getElem_map, ← List.getD_eq_getElem _ _ hi]
    exact lookup_normEntryPure fp ip symbol ts _ h1 h2

theorem C6_normalization_witness :
    ∃ out, convert_prices_to_numeric (fun s => if s = "1" then some 1 else none)
        (fun _ => none) "AAPL" "T" exGoodBatch = .ok out ∧
      out.length = exGoodBatch.length ∧
      (∀ e ∈ out, lookup e "execution_timestamp" =
          some (pyCoerce (fun s => if s = "1" then some 1 else none) (fun _ => none) (.vStr "T")) ∧
        lookup e "ticker" =
          some (pyCoerce (fun s => if s = "1" then some 1 else none) (fun _ => none) (.vStr "AAPL"))) ∧
      (∀ i, i < exGoodBatch.length → ∀ key, key ≠ "execution_timestamp" → key ≠ "ticker" →
        lookup (out.getD i []) key = (lookup (exGoodBatch.getD i []) key).map
          (fun v => if key = "datetime" then v
            else pyCoerce (fun s => if s = "1" then some 1 else none) (fun _ => none) v)) :=
  C6_normalization (fun s => if s = "1" then some 1 else none) (fun _ => none)
    "AAPL" "T" exGoodBatch (by decide)

/-- Claim C10: the coercion attempt applies to the provenance fields the
normalizer itself adds: whenever the requested symbol string parses as a
float (or, failing that, as an integer), the `"ticker"` field of every
normalized record is that number, not the symbol string; the field keyed
`"datetime"` is exempt and survives unchanged. -/
theorem C10_ticker_coercion (fp : String → Option ℚ) (ip : String → Option ℤ)
    (symbol ts : String) (raw : List Entry)
    (h : ∀ e ∈ raw, ∀ kv ∈ e, kv.2 ≠ RawValue.vNone) :
    ∃ out, convert_prices_to_numeric fp ip symbol ts raw = .ok out ∧
      (∀ q, fp symbol = some q →
        ∀ e ∈ out, lookup e "ticker" = some (.vNum q)) ∧
      (∀ z, fp symbol = none → ip symbol = some z →
        ∀ e ∈ out, lookup e "ticker" = some (.vNum (z : ℚ))) ∧
      (∀ i, i < raw.length →
        lookup (out.getD i []) "datetime" = lookup (raw.getD i []) "datetime") := by
  refine ⟨raw.map (normEntryPure fp ip symbol ts),
    convert_ok fp ip symbol ts raw h, ?_, ?_, ?_⟩
  · intro q hq e he
    obtain ⟨e0, _, rfl⟩ := List.mem_map.mp he
    rw [lookup_normEntryPure_ticker]
    simp [pyCoerce, hq]
  · intro z hf hz e he
    obtain ⟨e0, _, rfl⟩ := List.mem_map.mp he
    rw [lookup_normEntryPure_ticker]
    simp [pyCoerce, hf, hz]
  · intro i hi
    have hlen : i < (raw.map (normEntryPure fp ip symbol ts)).length := by simpa using hi
    rw [List.getD_eq_getElem _ _ hlen, List.getElem_map,
      ← List.getD_eq_getElem raw ([] : Entry) hi,
      lookup_normEntryPure fp ip symbol ts _ (by decide) (by decide)]
    simp

theorem C10_ticker_coercion_witness :
    ∃ out, convert_prices_to_numeric
        (fun s => if s = "12.5" then some ((25 : ℚ) / 2) else none)
        (fun _ => none) "12.5" "T" exGoodBatch = .ok out ∧
      (∀ q, (if "12.5" = "12.5" then some ((25 : ℚ) / 2) else none) = some q →
        ∀ e ∈ out, lookup e "ticker" = some (.vNum q)) ∧
      (∀ z, (if "12.5" = "12.5" then some ((25 : ℚ) / 2) else none) = none →
        (none : Option ℤ) = some z →
        ∀ e ∈ out, lookup e "ticker" = some (.vNum (z : ℚ))) ∧
      (∀ i, i < exGoodBatch.length →
        lookup (out.getD i []) "datetime" = lookup (exGoodBatch.getD i []) "datetime") :=
  C10_ticker_coercion (fun s => if s = "12.5" then some ((25 : ℚ) / 2) else none)
    (fun _ => none) "12.5" "T" exGoodBatch (by decide)

/-! ## Claim C7: the normalizer's output never makes the scanner raise -/

/-- The rational carried by an optional value, when it is numeric. -/
def numOf : Option RawValue → ℚ
  | some (.vNum q) => q
  | _ => 0

/-- The string carried by an optional value, when it is a string. -/
def strOf : Option RawValue → String
  | some (.vStr s) => s
  | _ => ""

/-- The coercion attempt turns `v` into a number. -/
def coercesNumeric (fp : String → Option ℚ) (ip : String → Option ℤ)
    (v : RawValue) : Bool :=
  match pyCoerce fp ip v with
  | .vNum _ => true
  | _ => false

/-- The optional value is present and coercible to a number. -/
def optCoercesNumeric (fp : String → Option ℚ) (ip : String → Option ℤ) :
    Option RawValue → Bool
  | some v => coercesNumeric fp ip v
  | none => false

/-- The optional value is present and a string. -/
def optIsStr : Option RawValue → Bool
  | some (.vStr _) => true
  | _ => false

/-- A well-formed raw record: `"low"` and `"high"` fields present and
numeric after coercion, and a string `"datetime"` field. -/
def wellFormedEntry (fp : String → Option ℚ) (ip : String → Option ℤ)
    (e : Entry) : Bool :=
  optCoercesNumeric fp ip (lookup e "low") &&
    optCoercesNumeric fp ip (lookup e "high") && optIsStr (lookup e "datetime")

lemma entryAt_map (f : Entry → Entry) (raw : List Entry) (i : Nat)
    (hi : i < raw.length) : entryAt (raw.map f) i = f (entryAt raw i) := by
  have hlen : i < (raw.map f).length := by simpa using hi
  rw [entryAt, entryAt, List.getD_eq_getElem _ _ hlen, List.getElem_map,
    ← List.getD_eq_getElem raw ([] : Entry) hi]

lemma entryAt_mem (raw : List Entry) (i : Nat) (hi : i < raw.length) :
    entryAt raw i ∈ raw := by
  rw [entryAt, List.getD_eq_getElem _ _ hi]
  exact List.getElem_mem hi

lemma find_support_levels_ok (data : List Entry) (l : Nat → ℚ) (t : Nat → String)
    (hl : NumField data "low" l)
    (hd : FieldVals data "datetime" (fun i => .vStr (t i))) :
    ∀ flag, ∃ r, find_support_levels data flag = .ok r := by
  intro flag
  have hsc := scanSupport_eval data l (fun i => .vStr (t i)) hl hd
    (List.range' 2 (data.length - 4)) (range'_window_bounds data.length)
  have hmapS : ((List.range' 2 (data.length - 4)).filter (fun i => isSupportIdx l i)).map
      (fun i => ((RawValue.vNum (l i), RawValue.vStr (t i)) : Level)) =
      (supportPairs l t data.length).map toLevel := by
    simp [supportPairs, List.map_map]
    intros
    rfl
  cases flag
  · exact ⟨.levels (((List.range' 2 (data.length - 4)).filter
        (fun i => isSupportIdx l i)).map
        (fun i => (RawValue.vNum (l i), RawValue.vStr (t i)))),
      by simp [find_support_levels, hsc]⟩
  · rcases hp : supportPairs l t data.length with _ | ⟨p, ps⟩
    · exact ⟨.best none, by simp [find_support_levels, hsc, hmapS, hp]⟩
    · obtain ⟨m, hm, -, -, -⟩ := pyMin_lex ps p
      exact ⟨.best (some (toLevel m)), by simp [find_support_levels, hsc, hmapS, hp, hm]⟩

lemma find_resistance_levels_ok (data : List Entry) (hq : Nat → ℚ) (t : Nat → String)
    (hh : NumField data "high" hq)
    (hd : FieldVals data "datetime" (fun i => .vStr (t i))) :
    ∀ flag, ∃ r, find_resistance_levels data flag = .ok r := by
  intro flag
  have hsc := scanResistance_eval data hq (fun i => .vStr (t i)) hh hd
    (List.range' 2 (data.length - 4)) (range'_window_bounds data.length)
  have hmapR : ((List.range' 2 (data.length - 4)).filter (fun i => isResistanceIdx hq i)).map
      (fun i => ((RawValue.vNum (hq i), RawValue.vStr (t i)) : Level)) =
      (resistancePairs hq t data.length).map toLevel := by
    simp [resistancePairs, List.map_map]
    intros
    rfl
  cases flag
  · exact ⟨.levels (((List.range' 2 (data.length - 4)).filter
        (fun i => isResistanceIdx hq i)).map
        (fun i => (RawValue.vNum (hq i), RawValue.vStr (t i)))),
      by simp [find_resistance_levels, hsc]⟩
  · rcases hp : resistancePairs hq t data.length with _ | ⟨p, ps⟩
    · exact ⟨.best none, by simp [find_resistance_levels, hsc, hmapR, hp]⟩
    · obtain ⟨m, hm, -, -, -⟩ := pyMax_lex ps p
      exact ⟨.best (some (toLevel m)), by simp [find_resistance_levels, hsc, hmapR, hp, hm]⟩

/-- Claim C7: on any well-formed, non-empty batch the normalizer accepts,
both scans run without raising, in either mode: absence of qualifying
points only ever shows up as an empty list or `None`. -/
theorem C7_round_trip (fp : String → Option ℚ) (ip : String → Option ℤ)
    (symbol ts : String) (raw out : List Entry)
    (hwf : ∀ e ∈ raw, wellFormedEntry fp ip e = true) (hne : raw ≠ [])
    (hacc : get_processed_data fp ip symbol ts (some raw) = .ok out) :
    ∀ flag, (∃ r, find_support_levels out flag = .ok r) ∧
      (∃ r, find_resistance_levels out flag = .ok r) := by
  have hlen0 : ¬ raw.length = 0 := fun h0 => hne (List.length_eq_zero.mp h0)
  rw [get_processed_data, if_neg hlen0] at hacc
  have hany : raw.any entryHasEmpty = false := by
    cases hh : raw.any entryHasEmpty
    · rfl
    · rw [check_for_empty_data, if_pos hh] at hacc
      exact absurd hacc (by simp)
  rw [check_for_empty_data, if_neg (by simp [hany])] at hacc
  rw [convert_ok fp ip symbol ts raw (no_none_of_not_empty hany)] at hacc
  have hout : out = raw.map (normEntryPure fp ip symbol ts) := by
    have h2 : (Except.ok (raw.map (normEntryPure fp ip symbol ts)) :
        Except PyErr (List Entry)) = Except.ok out := hacc
    exact (Except.ok.inj h2).symm
  subst hout
  have houtlen : (raw.map (normEntryPure fp ip symbol ts)).length = raw.length := by simp
  have hfield : ∀ i, i < raw.length →
      (∃ q, lookup (entryAt (raw.map (normEntryPure fp ip symbol ts)) i) "low" =
        some (.vNum q)) ∧
      (∃ q, lookup (entryAt (raw.map (normEntryPure fp ip symbol ts)) i) "high" =
        some (.vNum q)) ∧
      (∃ s, lookup (entryAt (raw.map (normEntryPure fp ip symbol ts)) i) "datetime" =
        some (.vStr s)) := by
    intro i hi
    rw [entryAt_map _ raw i hi]
    have hw := hwf (entryAt raw i) (entryAt_mem raw i hi)
    rw [wellFormedEntry, Bool.and_eq_true, Bool.and_eq_true] at hw
    obtain ⟨⟨hwl, hwh⟩, hwd⟩ := hw
    refine ⟨?_, ?_, ?_⟩
    · rcases hvl : lookup (entryAt raw i) "low" with _ | v
      · rw [hvl] at hwl; exact absurd hwl (by simp [optCoercesNumeric])
      · rw [hvl] at hwl
        simp only [optCoercesNumeric] at hwl
        rcases hcv : pyCoerce fp ip v with s | q | _ <;>
          simp [coercesNumeric, hcv] at hwl
        refine ⟨q, ?_⟩
        rw [lookup_normEntryPure fp ip symbol ts _ (by decide) (by decide), hvl]
        simp [hcv]
    · rcases hvl : lookup (entryAt raw i) "high" with _ | v
      · rw [hvl] at hwh; exact absurd hwh (by simp [optCoercesNumeric])
      · rw [hvl] at hwh
        simp only [optCoercesNumeric] at hwh
        rcases hcv : pyCoerce fp ip v with s | q | _ <;>
          simp [coercesNumeric, hcv] at hwh
        refine ⟨q, ?_⟩
        rw [lookup_normEntryPure fp ip symbol ts _ (by decide) (by decide), hvl]
        simp [hcv]
    · rcases hvl : lookup (entryAt raw i) "datetime" with _ | v
      · rw [hvl] at hwd; exact absurd hwd (by simp [optIsStr])
      · rcases v with s | q | _ <;> rw [hvl] at hwd <;>
          simp [optIsStr] at hwd
        refine ⟨s, ?_⟩
        rw [lookup_normEntryPure fp ip symbol ts _ (by decide) (by decide), hvl]
        simp
  have hl : NumField (raw.map (normEntryPure fp ip symbol ts)) "low"
      (fun i => numOf (lookup (entryAt (raw.map (normEntryPure fp ip symbol ts)) i) "low")) := by
    intro i hi
    rw [houtlen] at hi
    obtain ⟨⟨q, hq⟩, -, -⟩ := hfield i hi
    simp only [hq, numOf]
  have hh : NumField (raw.map (normEntryPure fp ip symbol ts)) "high"
      (fun i => numOf (lookup (entryAt (raw.map (normEntryPure fp ip symbol ts)) i) "high")) := by
    intro i hi
    rw [houtlen] at hi
    obtain ⟨-, ⟨q, hq⟩, -⟩ := hfield i hi
    simp only [hq, numOf]
  have hd : FieldVals (raw.map (normEntryPure fp ip symbol ts)) "datetime"
      (fun i => .vStr (strOf
        (lookup (entryAt (raw.map (normEntryPure fp ip symbol ts)) i) "datetime"))) := by
    intro i hi
    rw [houtlen] at hi
    obtain ⟨-, -, ⟨s, hs⟩⟩ := hfield i hi
    simp only [hs, strOf]
  intro flag
  exact ⟨find_support_levels_ok _ _ _ hl hd flag,
    find_resistance_levels_ok _ _ _ hh hd flag⟩

/-- The normalizer's output on `exGoodBatch` with trivial parse functions,
symbol `"A"` and timestamp `"T"`. -/
def exOut7 : List Entry :=
  [[("datetime", RawValue.vStr "d0"), ("low", RawValue.vNum 1),
    ("high", RawValue.vNum 2), ("execution_timestamp", RawValue.vStr "T"),
    ("ticker", RawValue.vStr "A")]]

theorem C7_round_trip_witness :
    (∃ r, find_support_levels exOut7 true = .ok r) ∧
    (∃ r, find_resistance_levels exOut7 true = .ok r) :=
  C7_round_trip (fun _ => none) (fun _ => none) "A" "T" exGoodBatch exOut7
    (by decide) (by decide) (by rfl) true

/-! ## Claim C8: the scan is a pure, side-effect-free function of the Series

To state the frame property we re-read the scanner at the state level: the
Python list of dicts is an explicit mutable store threaded through every
operation, and every read is a store access.  The theorem relates this
state-level reading to the pure scanner and shows the final store equals
the initial one: the scan writes nothing. -/

/-- A computation over the mutable store of records, returning a value and
the store after the operation, or raising. -/
def StM (α : Type) : Type := List Entry → Except PyErr (α × List Entry)

/-- A pure expression: no store access. -/
def stPure {α : Type} (a : α) : StM α := fun st => .ok (a, st)

/-- Sequencing of two statements over the store. -/
def stBind {α β : Type} (m : StM α) (f : α → StM β) : StM β := fun st =>
  match m st with
  | .error e => .error e
  | .ok (a, st1) => f a st1

/-- The read `data[i][key]` against the current store. -/
def stRead (i : Nat) (key : String) : StM RawValue := fun st =>
  match getItem (entryAt st i) key with
  | .error e => .error e
  | .ok v => .ok (v, st)

/-- `len(data)` against the current store. -/
def stLen : StM Nat := fun st => .ok (st.length, st)

/-- A comparison `a < b` of two already-read values (touches no record). -/
def stLt (a b : RawValue) : StM Bool := fun st =>
  match ltVal a b with
  | .error e => .error e
  | .ok r => .ok (r, st)

/-- A comparison `a > b` of two already-read values. -/
def stGt (a b : RawValue) : StM Bool := fun st =>
  match gtVal a b with
  | .error e => .error e
  | .ok r => .ok (r, st)

/-- A list comparison of two already-built levels (touches no record). -/
def stLevelLt (x y : Level) : StM Bool := fun st =>
  match levelLt x y with
  | .error e => .error e
  | .ok r => .ok (r, st)

/-- A list comparison `>` of two already-built levels. -/
def stLevelGt (x y : Level) : StM Bool := fun st =>
  match levelGt x y with
  | .error e => .error e
  | .ok r => .ok (r, st)

/-- The comparison expression `data[i][key] < data[j][key]`, reads and all,
at the state level. -/
def cmpLtSt (key : String) (i j : Nat) : StM Bool :=
  stBind (stRead i key) fun a => stBind (stRead j key) fun b => stLt a b

/-- The comparison expression `data[i][key] > data[j][key]` at the state
level. -/
def cmpGtSt (key : String) (i j : Nat) : StM Bool :=
  stBind (stRead i key) fun a => stBind (stRead j key) fun b => stGt a b

/-- The support condition at the state level (short-circuit `and`). -/
def supportCondSt (i : Nat) : StM Bool :=
  stBind (cmpLtSt "low" i (i - 1)) fun r1 =>
    if r1 then
      stBind (cmpLtSt "low" i (i - 2)) fun r2 =>
        if r2 then
          stBind (cmpLtSt "low" i (i + 1)) fun r3 =>
            if r3 then cmpLtSt "low" i (i + 2) else stPure false
        else stPure false
    else stPure false

/-- The resistance condition at the state level. -/
def resistanceCondSt (i : Nat) : StM Bool :=
  stBind (cmpGtSt "high" i (i - 1)) fun r1 =>
    if r1 then
      stBind (cmpGtSt "high" i (i - 2)) fun r2 =>
        if r2 then
          stBind (cmpGtSt "high" i (i + 1)) fun r3 =>
            if r3 then cmpGtSt "high" i (i + 2) else stPure false
        else stPure false
    else stPure false

/-- The support accumulation loop at the state level. -/
def scanSupportSt : List Nat → StM (List Level)
  | [] => stPure []
  | i :: rest =>
    stBind (supportCondSt i) fun b =>
      if b then
        stBind (stRead i "low") fun p =>
          stBind (stRead i "datetime") fun d =>
            stBind (scanSupportSt rest) fun tail => stPure ((p, d) :: tail)
      else scanSupportSt rest

/-- The resistance accumulation loop at the state level. -/
def scanResistanceSt : List Nat → StM (List Level)
  | [] => stPure []
  | i :: rest =>
    stBind (resistanceCondSt i) fun b =>
      if b then
        stBind (stRead i "high") fun p =>
          stBind (stRead i "datetime") fun d =>
            stBind (scanResistanceSt rest) fun tail => stPure ((p, d) :: tail)
      else scanResistanceSt rest

/-- `min` over levels at the state level (comparisons touch no record). -/
def pyMinSt (best : Level) : List Level → StM Level
  | [] => stPure best
  | x :: rest =>
    stBind (stLevelLt x best) fun r =>
      if r then pyMinSt x rest else pyMinSt best rest

/-- `max` over levels at the state level. -/
def pyMaxSt (best : Level) : List Level → StM Level
  | [] => stPure best
  | x :: rest =>
    stBind (stLevelGt x best) fun r =>
      if r then pyMaxSt x rest else pyMaxSt best rest

/-- The `global_only` postprocessing of the support scan at the state
level: `min(support_levels) if support_levels else None`. -/
def stGlobalMin (global_only : Bool) (levels : List Level) : StM ScanOut :=
  if global_only then
    match levels with
    | [] => stPure (.best none)
    | l :: ls => stBind (pyMinSt l ls) fun m => stPure (.best (some m))
  else stPure (.levels levels)

/-- The `global_only` postprocessing of the resistance scan at the state
level: `max(resistance_levels) if resistance_levels else None`. -/
def stGlobalMax (global_only : Bool) (levels : List Level) : StM ScanOut :=
  if global_only then
    match levels with
    | [] => stPure (.best none)
    | l :: ls => stBind (pyMaxSt l ls) fun m => stPure (.best (some m))
  else stPure (.levels levels)

/-- `find_support_levels` at the state level. -/
def find_support_levels_st (global_only : Bool) : StM ScanOut :=
  stBind stLen fun n =>
    stBind (scanSupportSt (List.range' 2 (n - 4))) fun levels =>
      stGlobalMin global_only levels

/-- `find_resistance_levels` at the state level. -/
def find_resistance_levels_st (global_only : Bool) : StM ScanOut :=
  stBind stLen fun n =>
    stBind (scanResistanceSt (List.range' 2 (n - 4))) fun levels =>
      stGlobalMax global_only levels

/-- The pure value of the `global_only` postprocessing of the support
scan. -/
def pureGlobalMin (global_only : Bool) (levels : List Level) : Except PyErr ScanOut :=
  if global_only then
    match levels with
    | [] => .ok (.best none)
    | l :: ls => (pyMin l ls).map (fun m => ScanOut.best (some m))
  else .ok (.levels levels)

/-- The pure value of the `global_only` postprocessing of the resistance
scan. -/
def pureGlobalMax (global_only : Bool) (levels : List Level) : Except PyErr ScanOut :=
  if global_only then
    match levels with
    | [] => .ok (.best none)
    | l :: ls => (pyMax l ls).map (fun m => ScanOut.best (some m))
  else .ok (.levels levels)

lemma stBind_pres {α β : Type} (m : StM α) (f : α → StM β)
    (pm : List Entry → Except PyErr α) (pf : List Entry → α → Except PyErr β)
    (hm : ∀ st, m st = (pm st).map (fun x => (x, st)))
    (hf : ∀ st a, f a st = (pf st a).map (fun x => (x, st))) (st : List Entry) :
    stBind m f st = ((pm st).bind (fun a => pf st a)).map (fun x => (x, st)) := by
  rw [stBind, hm st]
  rcases pm st with e | a
  · rfl
  · exact hf st a

lemma stRead_eval (i : Nat) (key : String) (st : List Entry) :
    stRead i key st = (getItem (entryAt st i) key).map (fun v => (v, st)) := by
  rw [stRead]
  cases getItem (entryAt st i) key <;> rfl

lemma stLt_eval (a b : RawValue) (st : List Entry) :
    stLt a b st = (ltVal a b).map (fun r => (r, st)) := by
  rw [stLt]
  cases ltVal a b <;> rfl

lemma stGt_eval (a b : RawValue) (st : List Entry) :
    stGt a b st = (gtVal a b).map (fun r => (r, st)) := by
  rw [stGt]
  cases gtVal a b <;> rfl

lemma stLevelLt_eval (x y : Level) (st : List Entry) :
    stLevelLt x y st = (levelLt x y).map (fun r => (r, st)) := by
  rw [stLevelLt]
  cases levelLt x y <;> rfl

lemma stLevelGt_eval (x y : Level) (st : List Entry) :
    stLevelGt x y st = (levelGt x y).map (fun r => (r, st)) := by
  rw [stLevelGt]
  cases levelGt x y <;> rfl

lemma cmpLtSt_eval (key : String) (i j : Nat) (st : List Entry) :
    cmpLtSt key i j st = (cmpLt st key i j).map (fun r => (r, st)) := by
  have hb : ∀ (a : RawValue) (s : List Entry),
      (stBind (stRead j key) fun b => stLt a b) s =
      ((getItem (entryAt s j) key).bind (fun b => ltVal a b)).map
        (fun r => (r, s)) :=
    fun a => stBind_pres _ _ (fun s => getItem (entryAt s j) key)
      (fun _ b => ltVal a b) (fun s => stRead_eval j key s)
      (fun s b => stLt_eval a b s)
  refine Eq.trans (stBind_pres _ _ (fun s => getItem (entryAt s i) key)
    (fun s a => (getItem (entryAt s j) key).bind (fun b => ltVal a b))
    (fun s => stRead_eval i key s) (fun st a => hb a st) st) ?_
  rw [cmpLt]
  rcases getItem (entryAt st i) key with e | a
  · rfl
  rcases getItem (entryAt st j) key with e | b <;> rfl

lemma cmpGtSt_eval (key : String) (i j : Nat) (st : List Entry) :
    cmpGtSt key i j st = (cmpGt st key i j).map (fun r => (r, st)) := by
  have hb : ∀ (a : RawValue) (s : List Entry),
      (stBind (stRead j key) fun b => stGt a b) s =
      ((getItem (entryAt s j) key).bind (fun b => gtVal a b)).map
        (fun r => (r, s)) :=
    fun a => stBind_pres _ _ (fun s => getItem (entryAt s j) key)
      (fun _ b => gtVal a b) (fun s => stRead_eval j key s)
      (fun s b => stGt_eval a b s)
  refine Eq.trans (stBind_pres _ _ (fun s => getItem (entryAt s i) key)
    (fun s a => (getItem (entryAt s j) key).bind (fun b => gtVal a b))
    (fun s => stRead_eval i key s) (fun st a => hb a st) st) ?_
  rw [cmpGt]
  rcases getItem (entryAt st i) key with e | a
  · rfl
  rcases getItem (entryAt st j) key with e | b <;> rfl

lemma supportCondSt_eval (i : Nat) (st : List Entry) :
    supportCondSt i st = (supportCond st i).map (fun r => (r, st)) := by
  have h4 : ∀ (s : List Entry) (r3 : Bool),
      (if r3 then cmpLtSt "low" i (i + 2) else stPure false) s =
      (if r3 then cmpLt s "low" i (i + 2) else Except.ok false).map
        (fun x => (x, s)) := by
    intro s r3
    cases r3
    · rfl
    · exact cmpLtSt_eval "low" i (i + 2) s
  have h3 : ∀ s : List Entry,
      (stBind (cmpLtSt "low" i (i + 1)) fun r3 =>
        if r3 then cmpLtSt "low" i (i + 2) else stPure false) s =
      ((cmpLt s "low" i (i + 1)).bind (fun r3 =>
        if r3 then cmpLt s "low" i (i + 2) else Except.ok false)).map
        (fun x => (x, s)) :=
    stBind_pres _ _ (fun s => cmpLt s "low" i (i + 1))
      (fun s r3 => if r3 then cmpLt s "low" i (i + 2) else Except.ok false)
      (fun s => cmpLtSt_eval "low" i (i + 1) s) h4
  have h2b : ∀ (s : List Entry) (r2 : Bool),
      (if r2 then stBind (cmpLtSt "low" i (i + 1)) fun r3 =>
          if r3 then cmpLtSt "low" i (i + 2) else stPure false
        else stPure false) s =
      (if r2 then (cmpLt s "low" i (i + 1)).bind (fun r3 =>
          if r3 then cmpLt s "low" i (i + 2) else Except.ok false)
        else Except.ok false).map (fun x => (x, s)) := by
    intro s r2
    cases r2
    · rfl
    · exact h3 s
  have h2 : ∀ s : List Entry,
      (stBind (cmpLtSt "low" i (i - 2)) fun r2 =>
        if r2 then stBind (cmpLtSt "low" i (i + 1)) fun r3 =>
            if r3 then cmpLtSt "low" i (i + 2) else stPure false
          else stPure false) s =
      ((cmpLt s "low" i (i - 2)).bind (fun r2 =>
        if r2 then (cmpLt s "low" i (i + 1)).bind (fun r3 =>
            if r3 then cmpLt s "low" i (i + 2) else Except.ok false)
          else Except.ok false)).map (fun x => (x, s)) :=
    stBind_pres _ _ (fun s => cmpLt s "low" i (i - 2))
      (fun s r2 => if r2 then (cmpLt s "low" i (i + 1)).bind (fun r3 =>
          if r3 then cmpLt s "low" i (i + 2) else Except.ok false)
        else Except.ok false)
      (fun s => cmpLtSt_eval "low" i (i - 2) s) h2b
  have h1b : ∀ (s : List Entry) (r1 : Bool),
      (if r1 then stBind (cmpLtSt "low" i (i - 2)) fun r2 =>
          if r2 then stBind (cmpLtSt "low" i (i + 1)) fun r3 =>
              if r3 then cmpLtSt "low" i (i + 2) else stPure false
            else stPure false
        else stPure false) s =
      (if r1 then (cmpLt s "low" i (i - 2)).bind (fun r2 =>
          if r2 then (cmpLt s "low" i (i + 1)).bind (fun r3 =>
              if r3 then cmpLt s "low" i (i + 2) else Except.ok false)
            else Except.ok false)
        else Except.ok false).map (fun x => (x, s)) := by
    intro s r1
    cases r1
    · rfl
    · exact h2 s
  refine Eq.trans (stBind_pres _ _ (fun s => cmpLt s "low" i (i - 1))
    (fun s r1 => if r1 then (cmpLt s "low" i (i - 2)).bind (fun r2 =>
        if r2 then (cmpLt s "low" i (i + 1)).bind (fun r3 =>
            if r3 then cmpLt s "low" i (i + 2) else Except.ok false)
          else Except.ok false)
      else Except.ok false)
    (fun s => cmpLtSt_eval "low" i (i - 1) s) h1b st) ?_
  rw [supportCond]
  rcases cmpLt st "low" i (i - 1) with e | r1
  · rfl
  cases r1
  · rfl
  rcases cmpLt st "low" i (i - 2) with e | r2
  · rfl
  cases r2
  · rfl
  rcases cmpLt st "low" i (i + 1) with e | r3
  · rfl
  cases r3 <;> rfl

lemma resistanceCondSt_eval (i : Nat) (st : List Entry) :
    resistanceCondSt i st = (resistanceCond st i).map (fun r => (r, st)) := by
  have h4 : ∀ (s : List Entry) (r3 : Bool),
      (if r3 then cmpGtSt "high" i (i + 2) else stPure false) s =
      (if r3 then cmpGt s "high" i (i + 2) else Except.ok false).map
        (fun x => (x, s)) := by
    intro s r3
    cases r3
    · rfl
    · exact cmpGtSt_eval "high" i (i + 2) s
  have h3 : ∀ s : List Entry,
      (stBind (cmpGtSt "high" i (i + 1)) fun r3 =>
        if r3 then cmpGtSt "high" i (i + 2) else stPure false) s =
      ((cmpGt s "high" i (i + 1)).bind (fun r3 =>
        if r3 then cmpGt s "high" i (i + 2) else Except.ok false)).map
        (fun x => (x, s)) :=
    stBind_pres _ _ (fun s => cmpGt s "high" i (i + 1))
      (fun s r3 => if r3 then cmpGt s "high" i (i + 2) else Except.ok false)
      (fun s => cmpGtSt_eval "high" i (i + 1) s) h4
  have h2b : ∀ (s : List Entry) (r2 : Bool),
      (if r2 then stBind (cmpGtSt "high" i (i + 1)) fun r3 =>
          if r3 then cmpGtSt "high" i (i + 2) else stPure false
        else stPure false) s =
      (if r2 then (cmpGt s "high" i (i + 1)).bind (fun r3 =>
          if r3 then cmpGt s "high" i (i + 2) else Except.ok false)
        else Except.ok false).map (fun x => (x, s)) := by
    intro s r2
    cases r2
    · rfl
    · exact h3 s
  have h2 : ∀ s : List Entry,
      (stBind (cmpGtSt "high" i (i - 2)) fun r2 =>
        if r2 then stBind (cmpGtSt "high" i (i + 1)) fun r3 =>
            if r3 then cmpGtSt "high" i (i + 2) else stPure false
          else stPure false) s =
      ((cmpGt s "high" i (i - 2)).bind (fun r2 =>
        if r2 then (cmpGt s "high" i (i + 1)).bind (fun r3 =>
            if r3 then cmpGt s "high" i (i + 2) else Except.ok false)
          else Except.ok false)).map (fun x => (x, s)) :=
    stBind_pres _ _ (fun s => cmpGt s "high" i (i - 2))
      (fun s r2 => if r2 then (cmpGt s "high" i (i + 1)).bind (fun r3 =>
          if r3 then cmpGt s "high" i (i + 2) else Except.ok false)
        else Except.ok false)
      (fun s => cmpGtSt_eval "high" i (i - 2) s) h2b
  have h1b : ∀ (s : List Entry) (r1 : Bool),
      (if r1 then stBind (cmpGtSt "high" i (i - 2)) fun r2 =>
          if r2 then stBind (cmpGtSt "high" i (i + 1)) fun r3 =>
              if r3 then cmpGtSt "high" i (i + 2) else stPure false
            else stPure false
        else stPure false) s =
      (if r1 then (cmpGt s "high" i (i - 2)).bind (fun r2 =>
          if r2 then (cmpGt s "high" i (i + 1)).bind (fun r3 =>
              if r3 then cmpGt s "high" i (i + 2) else Except.ok false)
            else Except.ok false)
        else Except.ok false).map (fun x => (x, s)) := by
    intro s r1
    cases r1
    · rfl
    · exact h2 s
  refine Eq.trans (stBind_pres _ _ (fun s => cmpGt s "high" i (i - 1))
    (fun s r1 => if r1 then (cmpGt s "high" i (i - 2)).bind (fun r2 =>
        if r2 then (cmpGt s "high" i (i + 1)).bind (fun r3 =>
            if r3 then cmpGt s "high" i (i + 2) else Except.ok false)
          else Except.ok false)
      else Except.ok false)
    (fun s => cmpGtSt_eval "high" i (i - 1) s) h1b st) ?_
  rw [resistanceCond]
  rcases cmpGt st "high" i (i - 1) with e | r1
  · rfl
  cases r1
  · rfl
  rcases cmpGt st "high" i (i - 2) with e | r2
  · rfl
  cases r2
  · rfl
  rcases cmpGt st "high" i (i + 1) with e | r3
  · rfl
  cases r3 <;> rfl

lemma scanSupportSt_eval : ∀ (L : List Nat) (st : List Entry),
    scanSupportSt L st = (scanSupport st L).map (fun x => (x, st))
  | [], _ => rfl
  | i :: rest, st => by
    have hTail : ∀ (p d : RawValue) (s : List Entry),
        (stBind (scanSupportSt rest) fun tail => stPure ((p, d) :: tail)) s =
        ((scanSupport s rest).bind (fun tail =>
          Except.ok ((p, d) :: tail))).map (fun x => (x, s)) :=
      fun p d => stBind_pres _ _ (fun s => scanSupport s rest)
        (fun _ tail => Except.ok ((p, d) :: tail))
        (fun s => scanSupportSt_eval rest s) (fun _ _ => rfl)
    have hD : ∀ (p : RawValue) (s : List Entry),
        (stBind (stRead i "datetime") fun d =>
          stBind (scanSupportSt rest) fun tail => stPure ((p, d) :: tail)) s =
        ((getItem (entryAt s i) "datetime").bind (fun d =>
          (scanSupport s rest).bind (fun tail =>
            Except.ok ((p, d) :: tail)))).map (fun x => (x, s)) :=
      fun p => stBind_pres _ _ (fun s => getItem (entryAt s i) "datetime")
        (fun s d => (scanSupport s rest).bind (fun tail =>
          Except.ok ((p, d) :: tail)))
        (fun s => stRead_eval i "datetime" s) (fun st d => hTail p d st)
    have hP : ∀ s : List Entry,
        (stBind (stRead i "low") fun p =>
          stBind (stRead i "datetime") fun d =>
            stBind (scanSupportSt rest) fun tail => stPure ((p, d) :: tail)) s =
        ((getItem (entryAt s i) "low").bind (fun p =>
          (getItem (entryAt s i) "datetime").bind (fun d =>
            (scanSupport s rest).bind (fun tail =>
              Except.ok ((p, d) :: tail))))).map (fun x => (x, s)) :=
      stBind_pres _ _ (fun s => getItem (entryAt s i) "low")
        (fun s p => (getItem (entryAt s i) "datetime").bind (fun d =>
          (scanSupport s rest).bind (fun tail =>
            Except.ok ((p, d) :: tail))))
        (fun s => stRead_eval i "low" s) (fun st p => hD p st)
    have hB : ∀ (s : List Entry) (b : Bool),
        (if b then stBind (stRead i "low") fun p =>
            stBind (stRead i "datetime") fun d =>
              stBind (scanSupportSt rest) fun tail => stPure ((p, d) :: tail)
          else scanSupportSt rest) s =
        (if b then (getItem (entryAt s i) "low").bind (fun p =>
            (getItem (entryAt s i) "datetime").bind (fun d =>
              (scanSupport s rest).bind (fun tail =>
                Except.ok ((p, d) :: tail))))
          else scanSupport s rest).map (fun x => (x, s)) := by
      intro s b
      cases b
      · exact scanSupportSt_eval rest s
      · exact hP s
    refine Eq.trans (stBind_pres _ _ (fun s => supportCond s i)
      (fun s b => if b then (getItem (entryAt s i) "low").bind (fun p =>
          (getItem (entryAt s i) "datetime").bind (fun d =>
            (scanSupport s rest).bind (fun tail =>
              Except.ok ((p, d) :: tail))))
        else scanSupport s rest)
      (fun s => supportCondSt_eval i s) hB st) ?_
    rw [scanSupport]
    rcases supportCond st i with e | b
    · rfl
    cases b
    · rfl
    rcases getItem (entryAt st i) "low" with e | p
    · rfl
    rcases getItem (entryAt st i) "datetime" with e | d
    · rfl
    rcases scanSupport st rest with e | tail <;> rfl

lemma scanResistanceSt_eval : ∀ (L : List Nat) (st : List Entry),
    scanResistanceSt L st = (scanResistance st L).map (fun x => (x, st))
  | [], _ => rfl
  | i :: rest, st => by
    have hTail : ∀ (p d : RawValue) (s : List Entry),
        (stBind (scanResistanceSt rest) fun tail => stPure ((p, d) :: tail)) s =
        ((scanResistance s rest).bind (fun tail =>
          Except.ok ((p, d) :: tail))).map (fun x => (x, s)) :=
      fun p d => stBind_pres _ _ (fun s => scanResistance s rest)
        (fun _ tail => Except.ok ((p, d) :: tail))
        (fun s => scanResistanceSt_eval rest s) (fun _ _ => rfl)
    have hD : ∀ (p : RawValue) (s : List Entry),
        (stBind (stRead i "datetime") fun d =>
          stBind (scanResistanceSt rest) fun tail => stPure ((p, d) :: tail)) s =
        ((getItem (entryAt s i) "datetime").bind (fun d =>
          (scanResistance s rest).bind (fun tail =>
            Except.ok ((p, d) :: tail)))).map (fun x => (x, s)) :=
      fun p => stBind_pres _ _ (fun s => getItem (entryAt s i) "datetime")
        (fun s d => (scanResistance s rest).bind (fun tail =>
          Except.ok ((p, d) :: tail)))
        (fun s => stRead_eval i "datetime" s) (fun st d => hTail p d st)
    have hP : ∀ s : List Entry,
        (stBind (stRead i "high") fun p =>
          stBind (stRead i "datetime") fun d =>
            stBind (scanResistanceSt rest) fun tail => stPure ((p, d) :: tail)) s =
        ((getItem (entryAt s i) "high").bind (fun p =>
          (getItem (entryAt s i) "datetime").bind (fun d =>
            (scanResistance s rest).bind (fun tail =>
              Except.ok ((p, d) :: tail))))).map (fun x => (x, s)) :=
      stBind_pres _ _ (fun s => getItem (entryAt s i) "high")
        (fun s p => (getItem (entryAt s i) "datetime").bind (fun d =>
          (scanResistance s rest).bind (fun tail =>
            Except.ok ((p, d) :: tail))))
        (fun s => stRead_eval i "high" s) (fun st p => hD p st)
    have hB : ∀ (s : List Entry) (b : Bool),
        (if b then stBind (stRead i "high") fun p =>
            stBind (stRead i "datetime") fun d =>
              stBind (scanResistanceSt rest) fun tail => stPure ((p, d) :: tail)
          else scanResistanceSt rest) s =
        (if b then (getItem (entryAt s i) "high").bind (fun p =>
            (getItem (entryAt s i) "datetime").bind (fun d =>
              (scanResistance s rest).bind (fun tail =>
                Except.ok ((p, d) :: tail))))
          else scanResistance s rest).map (fun x => (x, s)) := by
      intro s b
      cases b
      · exact scanResistanceSt_eval rest s
      · exact hP s
    refine Eq.trans (stBind_pres _ _ (fun s => resistanceCond s i)
      (fun s b => if b then (getItem (entryAt s i) "high").bind (fun p =>
          (getItem (entryAt s i) "datetime").bind (fun d =>
            (scanResistance s rest).bind (fun tail =>
              Except.ok ((p, d) :: tail))))
        else scanResistance s rest)
      (fun s => resistanceCondSt_eval i s) hB st) ?_
    rw [scanResistance]
    rcases resistanceCond st i with e | b
    · rfl
    cases b
    · rfl
    rcases getItem (entryAt st i) "high" with e | p
    · rfl
    rcases getItem (entryAt st i) "datetime" with e | d
    · rfl
    rcases scanResistance st rest with e | tail <;> rfl

lemma pyMinSt_eval : ∀ (L : List Level) (best : Level) (st : List Entry),
    pyMinSt best L st = (pyMin best L).map (fun x => (x, st))
  | [], _, _ => rfl
  | x :: rest, best, st => by
    have hB : ∀ (s : List Entry) (r : Bool),
        (if r then pyMinSt x rest else pyMinSt best rest) s =
        (if r then pyMin x rest else pyMin best rest).map (fun m => (m, s)) := by
      intro s r
      cases r
      · exact pyMinSt_eval rest best s
      · exact pyMinSt_eval rest x s
    refine Eq.trans (stBind_pres _ _ (fun _ => levelLt x best)
      (fun _ r => if r then pyMin x rest else pyMin best rest)
      (fun s => stLevelLt_eval x best s) hB st) ?_
    rw [pyMin]
    rcases levelLt x best with e | r
    · rfl
    cases r <;> rfl

lemma pyMaxSt_eval : ∀ (L : List Level) (best : Level) (st : List Entry),
    pyMaxSt best L st = (pyMax best L).map (fun x => (x, st))
  | [], _, _ => rfl
  | x :: rest, best, st => by
    have hB : ∀ (s : List Entry) (r : Bool),
        (if r then pyMaxSt x rest else pyMaxSt best rest) s =
        (if r then pyMax x rest else pyMax best rest).map (fun m => (m, s)) := by
      intro s r
      cases r
      · exact pyMaxSt_eval rest best s
      · exact pyMaxSt_eval rest x s
    refine Eq.trans (stBind_pres _ _ (fun _ => levelGt x best)
      (fun _ r => if r then pyMax x rest else pyMax best rest)
      (fun s => stLevelGt_eval x best s) hB st) ?_
    rw [pyMax]
    rcases levelGt x best with e | r
    · rfl
    cases r <;> rfl

lemma stGlobalMin_eval (global_only : Bool) (levels : List Level)
    (s : List Entry) : stGlobalMin global_only levels s =
      (pureGlobalMin global_only levels).map (fun x => (x, s)) := by
  cases global_only
  · rfl
  · rcases levels with _ | ⟨l, ls⟩
    · rfl
    · refine Eq.trans (stBind_pres _ _ (fun _ => pyMin l ls)
        (fun _ m => Except.ok (ScanOut.best (some m)))
        (fun s2 => pyMinSt_eval ls l s2) (fun _ _ => rfl) s) ?_
      rw [pureGlobalMin]
      rcases pyMin l ls with e | m <;> rfl

lemma stGlobalMax_eval (global_only : Bool) (levels : List Level)
    (s : List Entry) : stGlobalMax global_only levels s =
      (pureGlobalMax global_only levels).map (fun x => (x, s)) := by
  cases global_only
  · rfl
  · rcases levels with _ | ⟨l, ls⟩
    · rfl
    · refine Eq.trans (stBind_pres _ _ (fun _ => pyMax l ls)
        (fun _ m => Except.ok (ScanOut.best (some m)))
        (fun s2 => pyMaxSt_eval ls l s2) (fun _ _ => rfl) s) ?_
      rw [pureGlobalMax]
      rcases pyMax l ls with e | m <;> rfl

lemma find_support_levels_eq (data : List Entry) (flag : Bool) :
    find_support_levels data flag =
      (scanSupport data (List.range' 2 (data.length - 4))).bind
        (fun levels => pureGlobalMin flag levels) := by
  rw [find_support_levels]
  rcases scanSupport data (List.range' 2 (data.length - 4)) with e | levels
  · rfl
  cases flag
  · rfl
  rcases levels with _ | ⟨l, ls⟩
  · rfl
  rcases hm : pyMin l ls with e | m <;> simp [pureGlobalMin, hm, Except.bind, Except.map]

lemma find_resistance_levels_eq (data : List Entry) (flag : Bool) :
    find_resistance_levels data flag =
      (scanResistance data (List.range' 2 (data.length - 4))).bind
        (fun levels => pureGlobalMax flag levels) := by
  rw [find_resistance_levels]
  rcases scanResistance data (List.range' 2 (data.length - 4)) with e | levels
  · rfl
  cases flag
  · rfl
  rcases levels with _ | ⟨l, ls⟩
  · rfl
  rcases hm : pyMax l ls with e | m <;> simp [pureGlobalMax, hm, Except.bind, Except.map]

/-- Claim C8: the extrema scan is side-effect free.  Read at the state
level — the list of records as an explicit mutable store threaded through
every operation — each scan produces exactly the result of the pure scan
of that Series paired with the untouched store: the result is a function
of the Series alone, and scanning leaves every record unchanged. -/
theorem C8_scan_pure (data : List Entry) (global_only : Bool) :
    find_support_levels_st global_only data =
      (find_support_levels data global_only).map (fun o => (o, data)) ∧
    find_resistance_levels_st global_only data =
      (find_resistance_levels data global_only).map (fun o => (o, data)) := by
  constructor
  · have hScan : ∀ (n : Nat) (s : List Entry),
        (stBind (scanSupportSt (List.range' 2 (n - 4))) fun levels =>
          stGlobalMin global_only levels) s =
        ((scanSupport s (List.range' 2 (n - 4))).bind (fun levels =>
          pureGlobalMin global_only levels)).map (fun x => (x, s)) :=
      fun n => stBind_pres _ _
        (fun s => scanSupport s (List.range' 2 (n - 4)))
        (fun _ levels => pureGlobalMin global_only levels)
        (fun s => scanSupportSt_eval (List.range' 2 (n - 4)) s)
        (fun s levels => stGlobalMin_eval global_only levels s)
    refine Eq.trans (stBind_pres _ _ (fun s => Except.ok s.length)
      (fun s n => (scanSupport s (List.range' 2 (n - 4))).bind (fun levels =>
        pureGlobalMin global_only levels))
      (fun _ => rfl) (fun st n => hScan n st) data) ?_
    rw [find_support_levels_eq]
    rfl
  · have hScan : ∀ (n : Nat) (s : List Entry),
        (stBind (scanResistanceSt (List.range' 2 (n - 4))) fun levels =>
          stGlobalMax global_only levels) s =
        ((scanResistance s (List.range' 2 (n - 4))).bind (fun levels =>
          pureGlobalMax global_only levels)).map (fun x => (x, s)) :=
      fun n => stBind_pres _ _
        (fun s => scanResistance s (List.range' 2 (n - 4)))
        (fun _ levels => pureGlobalMax global_only levels)
        (fun s => scanResistanceSt_eval (List.range' 2 (n - 4)) s)
        (fun s levels => stGlobalMax_eval global_only levels s)
    refine Eq.trans (stBind_pres _ _ (fun s => Except.ok s.length)
      (fun s n => (scanResistance s (List.range' 2 (n - 4))).bind (fun levels =>
        pureGlobalMax global_only levels))
      (fun _ => rfl) (fun st n => hScan n st) data) ?_
    rw [find_resistance_levels_eq]
    rfl

end SRD
